import Mathlib

/-!
# RFQuack `FrequencyScannerModule`: a shallow embedding

Source: `src/modules/defaults/FrequencyScannerModule.h`.

Conventions of the embedding.

* `float` values (frequencies in MHz, RSSI readings, accumulated detections) are the
  rationals they denote.  Every `float` operation whose result the code uses as a number
  (the subtraction and division of line 94, the `+=` of line 134, the product, sum and
  product of line 162, the division of line 171) is followed by `f32`, rounding to the
  nearest binary32 value, ties to even.  Comparisons are exact.  The `++` of line 127
  counts at most 255 rounds and is exact in binary32; it is left unrounded.  Infinities
  and NaN are not represented.  A float-to-integer conversion whose truncated value does
  not fit the target type, and a division by zero, have no value in C++ and are reported
  as a `Fault`; so is a `sprintf` that writes past `message[30]` or renders with `%d` a
  value above `INT_MAX`.
* `uint8_t` / `uint16_t` / `uint32_t` values are naturals reduced modulo `2^8`, `2^16`,
  `2^32` at the places where the source narrows them.
* The radio driver (`rfqRadio`) is outside the source file: it is a parameter, a record
  of state-passing operations over an arbitrary driver state `σ`.  Every call made on it
  is appended to an event log, together with the writes of `this->enabled`, the
  allocation and the release of the result array.
* An array read outside the allocated result array is reported as a `Fault`.
* Logging (`RFQUACK_LOG_TRACE`, `Log.error`, `Log.trace`) and `delayMicroseconds` have no
  effect on the modelled state and are left out.
-/

namespace RFQuack

/-! ## Data model -/

/-- Radio identifiers (`rfquack_WhichRadio`); the enumeration is declared outside the
source file, its members are taken as numbers. -/
abbrev WhichRadio := Nat

/-- Default radio of the module, `rfquack_WhichRadio_RadioA`. -/
def rfquack_WhichRadio_RadioA : WhichRadio := 0

/-- Radio modes used by the scan (`rfquack_Mode_RX`, `rfquack_Mode_IDLE`). -/
inductive Mode where
  | rfquack_Mode_RX
  | rfquack_Mode_IDLE
deriving DecidableEq, Repr

/-- Result codes of the radio driver that the module compares against or replies with;
their numeric values are declared outside the source file and are parameters. -/
structure ErrorCodes where
  ERR_NONE : Int
  ERR_COMMAND_NOT_IMPLEMENTED : Int
  ERR_INVALID_FREQUENCY : Int

/-- The radio bridge `rfqRadio`, as state-passing operations on a driver state `σ`.
Operations with an out-parameter (`getRSSI`, `isCarrierDetected`) return the result code
together with the value the out-variable holds after the call. -/
structure RFQRadio (σ : Type) where
  setFrequency : ℚ → WhichRadio → σ → Int × σ
  setMode : Mode → WhichRadio → σ → Int × σ
  getRSSI : WhichRadio → σ → (Int × ℚ) × σ
  isCarrierDetected : WhichRadio → σ → (Int × Bool) × σ
  setPromiscuousMode : Bool → WhichRadio → σ → Int × σ

/-- One accumulator entry, `struct Item { uint8_t hop; float detections; }`. -/
structure Item where
  hop : Nat
  detections : ℚ
deriving DecidableEq, Repr

instance : Inhabited Item := ⟨⟨0, 0⟩⟩

/-- Fields of the module: `enabled` (inherited from `RFQModule`) and the five
configuration fields with their initialisers. -/
structure FrequencyScannerModule where
  enabled : Bool := false
  frequencyStep : ℚ := 1
  startFrequency : ℚ := 2400
  endFrequency : ℚ := 2525
  rounds : Nat := 5
  radioToUse : WhichRadio := rfquack_WhichRadio_RadioA
deriving DecidableEq, Repr

/-- Observable actions of `start`, in program order. -/
inductive Event where
  | setFrequency (f : ℚ) (w : WhichRadio)
  | setMode (m : Mode) (w : WhichRadio)
  | getRSSI (w : WhichRadio)
  | isCarrierDetected (w : WhichRadio)
  | setPromiscuousMode (b : Bool) (w : WhichRadio)
  | setEnabled (b : Bool)
  | allocResults (n : Nat)
  | deleteResults
deriving DecidableEq, Repr

/-- Conditions under which the C++ code has no defined value. -/
inductive Fault where
  | undefinedConversion
  | outOfBounds (index size : Nat)
  | divisionByZero
  | bufferOverflow
  | undefinedFormat
deriving DecidableEq, Repr

/-- The terminal reply: the text given to `setReplyMessage` and its optional result
argument. -/
structure CmdReply where
  message : String
  result : Option Int
deriving DecidableEq, Repr

/-- A per-result message sent with `PB_ENCODE_AND_SEND`: the frequency printed by
`sprintf`, which of the two texts is used, and the value argument of `setReplyMessage`. -/
structure FrequencyReply where
  frequency : Nat
  carrier : Bool
  value : ℚ
deriving DecidableEq, Repr

/-- Text of a per-result message, as built by `sprintf`. -/
def FrequencyReply.message (r : FrequencyReply) : String :=
  if r.carrier then toString r.frequency ++ " Hz carrier detections"
  else toString r.frequency ++ " Hz average RSSI"

/-- Everything `start` leaves behind: the module, the driver state, the event log, the
accumulator entries for which a message was sent (in sending order), the messages sent,
the terminal reply and the fault that cut the run short, if any. -/
structure Outcome (σ : Type) where
  module : FrequencyScannerModule
  radio : σ
  log : List Event
  reported : List Item
  sent : List FrequencyReply
  reply : Option CmdReply
  fault : Option Fault

/-! ## Conversions -/

/-- Conversion of a `float` to an unsigned integer of `2^bits` values: truncation toward
zero, undefined when the truncated value is not representable. -/
def toUnsigned (bits : Nat) (x : ℚ) : Option Nat :=
  if x ≤ -1 then none
  else if x < 0 then some 0
  else if x.floor.toNat < 2 ^ bits then some x.floor.toNat
  else none

/-- The power `2^e` for an integer exponent. -/
def pow2 (e : ℤ) : ℚ :=
  if 0 ≤ e then ((2 ^ e.toNat : ℕ) : ℚ) else 1 / ((2 ^ (-e).toNat : ℕ) : ℚ)

/-- Integer part of the base-2 logarithm of `n` (`0` for `n < 2`), by halving; `fuel`
bounds the number of halvings and `fuel = n` is always enough. -/
def ilog2 : Nat → Nat → Nat
  | 0, _ => 0
  | fuel + 1, n => if n < 2 then 0 else ilog2 fuel (n / 2) + 1

/-- Rounding of a non-negative rational to the nearest integer, ties to the even one. -/
def roundHalfEven (x : ℚ) : ℤ :=
  if x - x.floor < 1 / 2 then x.floor
  else if 1 / 2 < x - x.floor then x.floor + 1
  else if x.floor % 2 = 0 then x.floor else x.floor + 1

/-- The exponent `e` with `2^e <= a < 2^(e+1)`, for a positive rational `a`. -/
def binade (a : ℚ) : ℤ :=
  if pow2 ((ilog2 a.num.natAbs a.num.natAbs : ℤ) - (ilog2 a.den a.den : ℤ)) ≤ a
  then (ilog2 a.num.natAbs a.num.natAbs : ℤ) - (ilog2 a.den a.den : ℤ)
  else (ilog2 a.num.natAbs a.num.natAbs : ℤ) - (ilog2 a.den a.den : ℤ) - 1

/-- Rounding of a positive rational to the nearest binary32 value, ties to even: a
multiple of `2^(e - 23)`, where `e` is the exponent of the argument and not below the
least normal exponent `-126`. -/
def f32abs (a : ℚ) : ℚ :=
  (roundHalfEven (a / pow2 (max (binade a) (-126) - 23)) : ℚ)
    * pow2 (max (binade a) (-126) - 23)

/-- Rounding of a rational to the nearest binary32 value, ties to even: the result of a
`float` operation whose exact result is the argument.  Overflow to infinity is not
represented. -/
def f32 (x : ℚ) : ℚ :=
  if x = 0 then 0 else if x < 0 then - f32abs (-x) else f32abs x

/-- `uint16_t hops = (endFrequency - startFrequency) / frequencyStep;` -/
def computeHops (m : FrequencyScannerModule) : Option Nat :=
  if m.frequencyStep = 0 then none
  else toUnsigned 16 (f32 (f32 (m.endFrequency - m.startFrequency) / m.frequencyStep))

/-- Conversion of an `int` to `uint8_t`. -/
def toUint8 (x : Int) : Nat := (x % 256).toNat

/-! ## `onPacketReceived` -/

/-- `bool onPacketReceived(rfquack_Packet &pkt, rfquack_WhichRadio whichRadio)`: the
returned flag and the module after the call. -/
def onPacketReceived {P : Type} (m : FrequencyScannerModule) (_pkt : P)
    (whichRadio : WhichRadio) : Bool × FrequencyScannerModule :=
  (whichRadio != m.radioToUse, m)

/-! ## `bubbleSort` -/

/-- Body of the inner loop of `bubbleSort`: compare `a[o]` with `a[o + 1]` and swap. -/
def compareSwap (a : List Item) (o : Nat) : List Item :=
  if (a.getD o default).detections > (a.getD (o + 1) default).detections then
    let t := a.getD o default
    (a.set o (a.getD (o + 1) default)).set (o + 1) t
  else a

/-- Inner loop of `bubbleSort`: `for (int o = 0; o < n; o++)`. -/
def bubblePass (a : List Item) (n : Nat) : List Item :=
  (List.range n).foldl compareSwap a

/-- `void bubbleSort(Item a[], uint8_t size)`; the argument is narrowed to `uint8_t`. -/
def bubbleSort (a : List Item) (size : Nat) : List Item :=
  let size := size % 256
  (List.range (size - 1)).foldl (fun a i => bubblePass a (size - (i + 1))) a

/-! ## `start` -/

/-- State threaded through the sweep loops. -/
structure SweepState (σ : Type) where
  radio : σ
  log : List Event
  results : List Item

/-- Body of the hop loop (lines 108-140). -/
def hopBody {σ : Type} (E : ErrorCodes) (R : RFQRadio σ) (m : FrequencyScannerModule)
    (hasCD hasRSSI : Bool) (st : SweepState σ) (hop : Nat) : SweepState σ :=
  let w := m.radioToUse
  let p1 := R.setFrequency m.startFrequency w st.radio
  let log1 := st.log ++ [Event.setFrequency m.startFrequency w]
  if p1.1 ≠ E.ERR_NONE then
    { radio := p1.2, log := log1, results := st.results }
  else
    let p2 := R.setMode Mode.rfquack_Mode_RX w p1.2
    let log2 := log1 ++ [Event.setMode Mode.rfquack_Mode_RX w]
    if hasCD && !hasRSSI then
      let p3 := R.isCarrierDetected w p2.2
      let results :=
        if p3.1.2 then
          st.results.modify
            (fun it => { hop := toUint8 hop, detections := it.detections + 1 }) hop
        else st.results
      let p4 := R.setMode Mode.rfquack_Mode_IDLE w p3.2
      { radio := p4.2,
        log := log2 ++ [Event.isCarrierDetected w, Event.setMode Mode.rfquack_Mode_IDLE w],
        results := results }
    else
      let p3 := R.getRSSI w p2.2
      let results :=
        st.results.modify
          (fun it => { hop := toUint8 hop, detections := f32 (it.detections + p3.1.2) }) hop
      let p4 := R.setMode Mode.rfquack_Mode_IDLE w p3.2
      { radio := p4.2,
        log := log2 ++ [Event.getRSSI w, Event.setMode Mode.rfquack_Mode_IDLE w],
        results := results }

/-- One round: `for (int hop = 0; hop < hops; hop++)`. -/
def sweepRound {σ : Type} (E : ErrorCodes) (R : RFQRadio σ) (m : FrequencyScannerModule)
    (hasCD hasRSSI : Bool) (hops : Nat) (st : SweepState σ) : SweepState σ :=
  (List.range hops).foldl (hopBody E R m hasCD hasRSSI) st

/-- The sweep: `for (int sweep = 0; sweep < rounds; sweep++)`. -/
def sweep {σ : Type} (E : ErrorCodes) (R : RFQRadio σ) (m : FrequencyScannerModule)
    (hasCD hasRSSI : Bool) (hops : Nat) (st : SweepState σ) : SweepState σ :=
  (List.range m.rounds).foldl (fun st _ => sweepRound E R m hasCD hasRSSI hops st) st

/-- The `float` value converted to `uint32_t frequency` at line 162:
`(startFrequency + (float) hop * frequencyStep) * 1000`, each of the three operations
rounded to binary32. -/
def reportFrequency (m : FrequencyScannerModule) (it : Item) : ℚ :=
  f32 (f32 (m.startFrequency + f32 ((it.hop : ℚ) * m.frequencyStep)) * 1000)

/-- The report loop (lines 159-177), by recursion on `itemIndex`, which the loop
decrements until it is `0`.  Returns the entries read and reported, the messages sent
for them, and the fault that stopped the loop, if any.  The text "<frequency> Hz
carrier detections" fits `message[30]` only for a frequency below `10^7`; `%d` renders
the `uint32_t` as an `int`, which is defined only up to `INT_MAX`. -/
def reportLoop (m : FrequencyScannerModule) (hasCD hasRSSI : Bool) (results : List Item) :
    (itemIndex : Nat) → (sentItems : Nat) → List (Item × FrequencyReply) × Option Fault
  | 0, _ => ([], none)
  | i + 1, sentItems =>
    match results.get? (i + 1) with
    | none => ([], some (Fault.outOfBounds (i + 1) results.length))
    | some it =>
      if sentItems < 10 ∧ it.detections ≠ 0 then
        match toUnsigned 32 (reportFrequency m it) with
        | none => ([], some Fault.undefinedConversion)
        | some frequency =>
          if hasCD && !hasRSSI then
            if 10 ^ 7 ≤ frequency then ([], some Fault.bufferOverflow)
            else
              let rest := reportLoop m hasCD hasRSSI results i (sentItems + 1)
              ((it, { frequency := frequency, carrier := true, value := it.detections })
                :: rest.1, rest.2)
          else if 2 ^ 31 ≤ frequency then ([], some Fault.undefinedFormat)
          else if m.rounds = 0 then ([], some Fault.divisionByZero)
          else
            let rest := reportLoop m hasCD hasRSSI results i (sentItems + 1)
            ((it, { frequency := frequency, carrier := false,
                    value := f32 (it.detections / m.rounds) }) :: rest.1, rest.2)
      else ([], none)

/-- Texts of the terminal replies. -/
def msgStartInvalid : String := "startFrequency is not valid"
def msgEndInvalid : String := "endFrequency is not valid"
def msgStepInvalid : String := "Frequency step must be positive"
def msgUnsupported : String := "Radio needs to support RSSI or Carrier Detection"
def msgNothing : String := "Nothing detected"
def msgTop10 : String := "Sending top 10 frequencies"

/-- Radio state after the two tuning probes of the range check. -/
def radioAfterRange {σ : Type} (R : RFQRadio σ) (m : FrequencyScannerModule) (s0 : σ) : σ :=
  (R.setFrequency m.endFrequency m.radioToUse
    (R.setFrequency m.startFrequency m.radioToUse s0).2).2

/-- Result code of the tuning probe of `startFrequency` (line 56). -/
def probeStart {σ : Type} (R : RFQRadio σ) (m : FrequencyScannerModule) (s0 : σ) : Int :=
  (R.setFrequency m.startFrequency m.radioToUse s0).1

/-- Result code of the tuning probe of `endFrequency` (line 61). -/
def probeEnd {σ : Type} (R : RFQRadio σ) (m : FrequencyScannerModule) (s0 : σ) : Int :=
  (R.setFrequency m.endFrequency m.radioToUse
    (R.setFrequency m.startFrequency m.radioToUse s0).2).1

/-- The flag `hasRSSI` (line 76). -/
def hasRSSI {σ : Type} (E : ErrorCodes) (R : RFQRadio σ) (m : FrequencyScannerModule)
    (s0 : σ) : Bool :=
  (R.getRSSI m.radioToUse (radioAfterRange R m s0)).1.1 != E.ERR_COMMAND_NOT_IMPLEMENTED

/-- The flag `hasCD` (line 78). -/
def hasCD {σ : Type} (E : ErrorCodes) (R : RFQRadio σ) (m : FrequencyScannerModule)
    (s0 : σ) : Bool :=
  (R.isCarrierDetected m.radioToUse
    (R.getRSSI m.radioToUse (radioAfterRange R m s0)).2).1.1
      != E.ERR_COMMAND_NOT_IMPLEMENTED

/-- Radio state after the two capability probes. -/
def radioAfterProbe {σ : Type} (R : RFQRadio σ) (m : FrequencyScannerModule) (s0 : σ) : σ :=
  (R.isCarrierDetected m.radioToUse
    (R.getRSSI m.radioToUse (radioAfterRange R m s0)).2).2

/-- Event log of a run up to and including `new Item[hops]`. -/
def logBeforeSweep (m : FrequencyScannerModule) (hops : Nat) : List Event :=
  [Event.setFrequency m.startFrequency m.radioToUse,
   Event.setFrequency m.endFrequency m.radioToUse,
   Event.getRSSI m.radioToUse,
   Event.isCarrierDetected m.radioToUse,
   Event.setEnabled true,
   Event.allocResults hops]

/-- Sweep state at the end of the sweep of a run with `hops` hops: the zeroed result
array (lines 98-99) taken through the loops of lines 102-142. -/
def afterSweep {σ : Type} (E : ErrorCodes) (R : RFQRadio σ) (m : FrequencyScannerModule)
    (s0 : σ) (hops : Nat) : SweepState σ :=
  sweep E R m (hasCD E R m s0) (hasRSSI E R m s0) hops
    { radio := radioAfterProbe R m s0,
      log := logBeforeSweep m hops,
      results := List.replicate hops ⟨0, 0⟩ }

/-- The part of `start` after the sweep (lines 144-183). -/
def report {σ : Type} (R : RFQRadio σ) (m : FrequencyScannerModule) (hasCD hasRSSI : Bool)
    (hops : Nat) (st : SweepState σ) : Outcome σ :=
  let m2 := { m with enabled := false }
  let log := st.log ++ [Event.setEnabled false]
  let results := bubbleSort st.results hops
  let itemIndex := toUint8 ((hops : Int) - 1)
  match results.get? itemIndex with
  | none =>
    { module := m2, radio := st.radio, log := log, reported := [], sent := [],
      reply := none, fault := some (Fault.outOfBounds itemIndex results.length) }
  | some top =>
    if top.detections = 0 then
      { module := m2, radio := st.radio, log := log, reported := [], sent := [],
        reply := some ⟨msgNothing, none⟩, fault := none }
    else
      let rep := reportLoop m hasCD hasRSSI results itemIndex 0
      match rep.2 with
      | some f =>
        { module := m2, radio := st.radio, log := log, reported := rep.1.map Prod.fst,
          sent := rep.1.map Prod.snd, reply := none, fault := some f }
      | none =>
        { module := m2,
          radio := (R.setPromiscuousMode false m.radioToUse st.radio).2,
          log := log ++ [Event.deleteResults, Event.setPromiscuousMode false m.radioToUse],
          reported := rep.1.map Prod.fst, sent := rep.1.map Prod.snd,
          reply := some ⟨msgTop10, none⟩, fault := none }

/-- `void start(rfquack_CmdReply &reply)`. -/
def start {σ : Type} (E : ErrorCodes) (R : RFQRadio σ) (m : FrequencyScannerModule)
    (s0 : σ) : Outcome σ :=
  let w := m.radioToUse
  if probeStart R m s0 ≠ E.ERR_NONE then
    { module := m, radio := (R.setFrequency m.startFrequency w s0).2,
      log := [Event.setFrequency m.startFrequency w], reported := [], sent := [],
      reply := some ⟨msgStartInvalid, some 1⟩, fault := none }
  else if probeEnd R m s0 ≠ E.ERR_NONE ∨ m.endFrequency ≤ m.startFrequency then
    { module := m, radio := radioAfterRange R m s0,
      log := [Event.setFrequency m.startFrequency w, Event.setFrequency m.endFrequency w],
      reported := [], sent := [], reply := some ⟨msgEndInvalid, some 1⟩, fault := none }
  else if m.frequencyStep < 0 then
    { module := m, radio := radioAfterRange R m s0,
      log := [Event.setFrequency m.startFrequency w, Event.setFrequency m.endFrequency w],
      reported := [], sent := [], reply := some ⟨msgStepInvalid, some E.ERR_INVALID_FREQUENCY⟩,
      fault := none }
  else if !hasCD E R m s0 && !hasRSSI E R m s0 then
    { module := m, radio := radioAfterProbe R m s0,
      log := [Event.setFrequency m.startFrequency w, Event.setFrequency m.endFrequency w,
              Event.getRSSI w, Event.isCarrierDetected w],
      reported := [], sent := [], reply := some ⟨msgUnsupported, some E.ERR_COMMAND_NOT_IMPLEMENTED⟩,
      fault := none }
  else
    match computeHops m with
    | none =>
      { module := { m with enabled := true }, radio := radioAfterProbe R m s0,
        log := [Event.setFrequency m.startFrequency w, Event.setFrequency m.endFrequency w,
                Event.getRSSI w, Event.isCarrierDetected w, Event.setEnabled true],
        reported := [], sent := [], reply := none, fault := some Fault.undefinedConversion }
    | some hops =>
      report R m (hasCD E R m s0) (hasRSSI E R m s0) hops (afterSweep E R m s0 hops)

/-! ## Scripted radios used in the worked examples -/

/-- Error codes with the values of the RadioLib/RFQuack headers' convention: `0` for
success, two distinct negative codes otherwise. -/
def exampleCodes : ErrorCodes :=
  { ERR_NONE := 0, ERR_COMMAND_NOT_IMPLEMENTED := -2, ERR_INVALID_FREQUENCY := -1 }

/-- A radio without RSSI whose carrier-detect answers are scripted: the driver state
counts the `isCarrierDetected` calls made so far (the capability probe is call `0`), and
call number `k` reports a carrier when `carrier k` holds. -/
def carrierRadio (carrier : Nat → Bool) : RFQRadio Nat :=
  { setFrequency := fun _ _ s => (0, s),
    setMode := fun _ _ s => (0, s),
    getRSSI := fun _ s => ((-2, 0), s),
    isCarrierDetected := fun _ s => ((0, carrier s), s + 1),
    setPromiscuousMode := fun _ _ s => (0, s) }

/-- A radio with RSSI (and carrier detect) whose RSSI readings are scripted: the driver
state counts the `getRSSI` calls made so far (the capability probe is call `0`). -/
def rssiRadio (rssi : Nat → ℚ) : RFQRadio Nat :=
  { setFrequency := fun _ _ s => (0, s),
    setMode := fun _ _ s => (0, s),
    getRSSI := fun _ s => ((0, rssi s), s + 1),
    isCarrierDetected := fun _ s => ((0, false), s),
    setPromiscuousMode := fun _ _ s => (0, s) }

/-- The configuration `start_freq = 2400`, `end_freq`, `freq_step`, `rounds` on radio A. -/
def scanConfig (endFrequency frequencyStep : ℚ) (rounds : Nat) : FrequencyScannerModule :=
  { enabled := false, frequencyStep := frequencyStep, startFrequency := 2400,
    endFrequency := endFrequency, rounds := rounds,
    radioToUse := rfquack_WhichRadio_RadioA }

/-- Frequencies passed to `setFrequency` by the events of a log, in order. -/
def tuningRequests : List Event → List ℚ
  | [] => []
  | Event.setFrequency f _ :: rest => f :: tuningRequests rest
  | _ :: rest => tuningRequests rest

end RFQuack


namespace RFQuack

/-! ## Properties of `bubbleSort` -/

theorem compareSwap_cons_succ (x : Item) (t : List Item) (o : Nat) :
    compareSwap (x :: t) (o + 1) = x :: compareSwap t o := by
  unfold compareSwap
  simp only [List.getD_cons_succ, List.set_cons_succ]
  split_ifs <;> rfl

theorem compareSwap_zero (x y : Item) (t : List Item) :
    compareSwap (x :: y :: t) 0
      = if x.detections > y.detections then y :: x :: t else x :: y :: t := by
  unfold compareSwap
  simp

theorem foldl_compareSwap_shift (L : List Nat) :
    ∀ (z : Item) (l : List Item),
      L.foldl (fun a o => compareSwap a (o + 1)) (z :: l) = z :: L.foldl compareSwap l := by
  induction L with
  | nil => intro z l; rfl
  | cons o L ih =>
    intro z l
    simp only [List.foldl_cons, compareSwap_cons_succ, ih]

theorem bubblePass_zero (a : List Item) : bubblePass a 0 = a := rfl

theorem bubblePass_cons_cons (n : Nat) (x y : Item) (t : List Item) :
    bubblePass (x :: y :: t) (n + 1)
      = if x.detections > y.detections then y :: bubblePass (x :: t) n
        else x :: bubblePass (y :: t) n := by
  unfold bubblePass
  rw [List.range_succ_eq_map, List.foldl_cons, List.foldl_map, compareSwap_zero]
  split_ifs
  · exact foldl_compareSwap_shift _ _ _
  · exact foldl_compareSwap_shift _ _ _

/-- A pass over a prefix does not touch what follows the prefix. -/
theorem bubblePass_append (n : Nat) :
    ∀ (p s : List Item), n + 1 ≤ p.length → bubblePass (p ++ s) n = bubblePass p n ++ s := by
  induction n with
  | zero => intro p s _; rfl
  | succ n ih =>
    intro p s hp
    match p, hp with
    | x :: y :: t, hp =>
      simp only [List.cons_append, bubblePass_cons_cons]
      have h1 : n + 1 ≤ (x :: t).length := by simp at hp ⊢; omega
      have h2 : n + 1 ≤ (y :: t).length := by simp at hp ⊢; omega
      split_ifs
      · rw [← List.cons_append, ih _ _ h1]; rfl
      · rw [← List.cons_append, ih _ _ h2]; rfl

theorem bubblePass_perm (n : Nat) :
    ∀ (p : List Item), n + 1 ≤ p.length → (bubblePass p n).Perm p := by
  induction n with
  | zero => intro p _; exact List.Perm.refl _
  | succ n ih =>
    intro p hp
    match p, hp with
    | x :: y :: t, hp =>
      have h1 : n + 1 ≤ (x :: t).length := by simp at hp ⊢; omega
      have h2 : n + 1 ≤ (y :: t).length := by simp at hp ⊢; omega
      rw [bubblePass_cons_cons]
      split_ifs
      · exact ((ih _ h1).cons y).trans (List.Perm.swap x y t)
      · exact (ih _ h2).cons x

/-- A pass keeps, for every score `k`, the entries of score `k` in their order. -/
theorem bubblePass_filter (k : ℚ) (n : Nat) :
    ∀ (p : List Item), n + 1 ≤ p.length →
      (bubblePass p n).filter (fun it => decide (it.detections = k))
        = p.filter (fun it => decide (it.detections = k)) := by
  induction n with
  | zero => intro p _; rfl
  | succ n ih =>
    intro p hp
    match p, hp with
    | x :: y :: t, hp =>
      have h1 : n + 1 ≤ (x :: t).length := by simp at hp ⊢; omega
      have h2 : n + 1 ≤ (y :: t).length := by simp at hp ⊢; omega
      rw [bubblePass_cons_cons]
      split_ifs with hxy
      · rw [List.filter_cons, ih _ h1]
        by_cases hx : x.detections = k
        · have hy : ¬ y.detections = k := by
            intro hy; rw [hx, hy] at hxy; exact lt_irrefl _ hxy
          simp [List.filter_cons, hx, hy]
        · by_cases hy : y.detections = k <;> simp [List.filter_cons, hx, hy]
      · rw [List.filter_cons, ih _ h2]
        conv_rhs => rw [List.filter_cons]

/-- A pass of `n` comparisons over `n + 1` entries leaves a largest entry last. -/
theorem bubblePass_last (n : Nat) :
    ∀ (p : List Item), p.length = n + 1 →
      ∃ q mx, bubblePass p n = q ++ [mx] ∧ q.length = n ∧
        ∀ z ∈ q, z.detections ≤ mx.detections := by
  induction n with
  | zero =>
    intro p hp
    match p, hp with
    | [x], _ => exact ⟨[], x, rfl, rfl, by simp⟩
  | succ n ih =>
    intro p hp
    match p, hp with
    | x :: y :: t, hp =>
      have h1 : (x :: t).length = n + 1 := by simp at hp ⊢; omega
      have h2 : (y :: t).length = n + 1 := by simp at hp ⊢; omega
      rw [bubblePass_cons_cons]
      split_ifs with hxy
      · obtain ⟨q, mx, hq, hlen, hmax⟩ := ih _ h1
        have hxm : x.detections ≤ mx.detections := by
          have hmem : x ∈ bubblePass (x :: t) n :=
            (bubblePass_perm n _ (le_of_eq h1.symm)).mem_iff.mpr (List.mem_cons_self _ _)
          rw [hq, List.mem_append] at hmem
          rcases hmem with hmem | hmem
          · exact hmax _ hmem
          · rw [List.mem_singleton.mp hmem]
        refine ⟨y :: q, mx, by rw [hq]; rfl, by simp [hlen], ?_⟩
        intro z hz
        rcases List.mem_cons.mp hz with rfl | hz
        · exact le_trans (le_of_lt hxy) hxm
        · exact hmax _ hz
      · obtain ⟨q, mx, hq, hlen, hmax⟩ := ih _ h2
        have hym : y.detections ≤ mx.detections := by
          have hmem : y ∈ bubblePass (y :: t) n :=
            (bubblePass_perm n _ (le_of_eq h2.symm)).mem_iff.mpr (List.mem_cons_self _ _)
          rw [hq, List.mem_append] at hmem
          rcases hmem with hmem | hmem
          · exact hmax _ hmem
          · rw [List.mem_singleton.mp hmem]
        refine ⟨x :: q, mx, by rw [hq]; rfl, by simp [hlen], ?_⟩
        intro z hz
        rcases List.mem_cons.mp hz with rfl | hz
        · exact le_trans (not_lt.mp hxy) hym
        · exact hmax _ hz

theorem bubbleOuter_succ (s k : Nat) (a : List Item) :
    (List.range (k + 1)).foldl (fun a i => bubblePass a (s - (i + 1))) a
      = (List.range k).foldl (fun a i => bubblePass a ((s - 1) - (i + 1)))
          (bubblePass a (s - 1)) := by
  rw [List.range_succ_eq_map, List.foldl_cons, List.foldl_map]
  have hf : (fun (x : List Item) (y : Nat) => bubblePass x (s - (Nat.succ y + 1)))
      = (fun a i => bubblePass a ((s - 1) - (i + 1))) := by
    funext x y
    congr 1
    omega
  rw [hf]

/-- The outer loop of `bubbleSort` on a prefix of `k + 1` entries: the prefix ends up
sorted, is a permutation of what it was, and keeps entries of equal score in order. -/
theorem bubbleOuter_spec (k : Nat) :
    ∀ (p s : List Item), p.length = k + 1 →
      ∃ q, (List.range k).foldl (fun a i => bubblePass a ((k + 1) - (i + 1))) (p ++ s)
            = q ++ s ∧
        q.Perm p ∧
        q.Pairwise (fun a b => a.detections ≤ b.detections) ∧
        ∀ key : ℚ, q.filter (fun it => decide (it.detections = key))
          = p.filter (fun it => decide (it.detections = key)) := by
  induction k with
  | zero =>
    intro p s hp
    match p, hp with
    | [x], _ => exact ⟨[x], rfl, List.Perm.refl _, List.pairwise_singleton _ _, fun _ => rfl⟩
  | succ k ih =>
    intro p s hp
    rw [bubbleOuter_succ]
    have hk : k + 1 + 1 - 1 = k + 1 := by omega
    rw [hk, bubblePass_append (k + 1) p s (le_of_eq hp.symm)]
    obtain ⟨q0, mx, hq0, hlen, hmax⟩ := bubblePass_last (k + 1) p hp
    have hperm0 := bubblePass_perm (k + 1) p (le_of_eq hp.symm)
    rw [hq0, List.append_assoc]
    obtain ⟨q1, hq1, hperm1, hsorted1, hfilter1⟩ := ih q0 ([mx] ++ s) hlen
    refine ⟨q1 ++ [mx], ?_, ?_, ?_, ?_⟩
    · rw [hq1, List.append_assoc]
    · rw [hq0] at hperm0
      exact (hperm1.append_right [mx]).trans hperm0
    · rw [List.pairwise_append]
      refine ⟨hsorted1, List.pairwise_singleton _ _, ?_⟩
      intro a ha b hb
      rw [List.mem_singleton.mp hb]
      exact hmax a (hperm1.mem_iff.mp ha)
    · intro key
      rw [List.filter_append, hfilter1 key, ← List.filter_append, ← hq0]
      exact bubblePass_filter key (k + 1) p (le_of_eq hp.symm)

/-- What `bubbleSort` does to an array holding at least `size % 256` entries: the first
`size % 256` entries are sorted by non-decreasing score, stably, and the rest is left
alone. -/
theorem bubbleSort_spec (a : List Item) (size : Nat) (h : size % 256 ≤ a.length) :
    ∃ q, bubbleSort a size = q ++ a.drop (size % 256) ∧
      q.Perm (a.take (size % 256)) ∧
      q.Pairwise (fun x y => x.detections ≤ y.detections) ∧
      ∀ key : ℚ, q.filter (fun it => decide (it.detections = key))
        = (a.take (size % 256)).filter (fun it => decide (it.detections = key)) := by
  unfold bubbleSort
  simp only
  generalize size % 256 = n at h
  cases n with
  | zero =>
    exact ⟨[], by simp, by simp, List.Pairwise.nil, fun _ => by simp⟩
  | succ k =>
    have hlen : (a.take (k + 1)).length = k + 1 := by
      rw [List.length_take]; omega
    obtain ⟨q, hq, hperm, hsorted, hfilter⟩ := bubbleOuter_spec k (a.take (k + 1)) (a.drop (k + 1)) hlen
    rw [List.take_append_drop] at hq
    have hk : k + 1 - 1 = k := by omega
    rw [hk]
    exact ⟨q, hq, hperm, hsorted, hfilter⟩

theorem bubbleSort_perm (a : List Item) (size : Nat) (h : size % 256 ≤ a.length) :
    (bubbleSort a size).Perm a := by
  obtain ⟨q, hq, hperm, _, _⟩ := bubbleSort_spec a size h
  rw [hq]
  exact (hperm.append_right _).trans (by rw [List.take_append_drop])

/-! ## Properties of the sweep -/

/-- Events a hop of the sweep can add to the log, for the given capability flags. -/
def HopEvent (m : FrequencyScannerModule) (hasCD hasRSSI : Bool) (e : Event) : Prop :=
  e = Event.setFrequency m.startFrequency m.radioToUse ∨
  e = Event.setMode Mode.rfquack_Mode_RX m.radioToUse ∨
  e = Event.setMode Mode.rfquack_Mode_IDLE m.radioToUse ∨
  (e = Event.isCarrierDetected m.radioToUse ∧ (hasCD && !hasRSSI) = true) ∨
  (e = Event.getRSSI m.radioToUse ∧ (hasCD && !hasRSSI) = false)

/-- Any property of the sweep state kept by every hop is kept by the whole sweep. -/
theorem sweep_induction {σ : Type} (E : ErrorCodes) (R : RFQRadio σ)
    (m : FrequencyScannerModule) (hasCD hasRSSI : Bool) (hops : Nat)
    (P : SweepState σ → Prop)
    (hstep : ∀ st hop, hop < hops → P st → P (hopBody E R m hasCD hasRSSI st hop))
    (st : SweepState σ) (h0 : P st) : P (sweep E R m hasCD hasRSSI hops st) := by
  have hround : ∀ st, P st → P (sweepRound E R m hasCD hasRSSI hops st) := by
    intro st hst
    unfold sweepRound
    have key : ∀ (L : List Nat), (∀ h ∈ L, h < hops) → ∀ st, P st →
        P (L.foldl (hopBody E R m hasCD hasRSSI) st) := by
      intro L
      induction L with
      | nil => intro _ st hst; exact hst
      | cons h L ih =>
        intro hL st hst
        rw [List.foldl_cons]
        exact ih (fun x hx => hL x (List.mem_cons_of_mem _ hx)) _
          (hstep st h (hL h (List.mem_cons_self _ _)) hst)
    exact key _ (fun h hh => List.mem_range.mp hh) st hst
  unfold sweep
  generalize List.range m.rounds = L
  induction L generalizing st with
  | nil => exact h0
  | cons r L ih =>
    rw [List.foldl_cons]
    exact ih _ (hround st h0)

theorem hopBody_length {σ : Type} (E : ErrorCodes) (R : RFQRadio σ)
    (m : FrequencyScannerModule) (hasCD hasRSSI : Bool) (st : SweepState σ) (hop : Nat) :
    (hopBody E R m hasCD hasRSSI st hop).results.length = st.results.length := by
  unfold hopBody
  simp only
  split_ifs <;> simp [List.length_modify]

theorem hopBody_log {σ : Type} (E : ErrorCodes) (R : RFQRadio σ)
    (m : FrequencyScannerModule) (hasCD hasRSSI : Bool) (st : SweepState σ) (hop : Nat) :
    ∃ ext, (hopBody E R m hasCD hasRSSI st hop).log = st.log ++ ext ∧
      ∀ e ∈ ext, HopEvent m hasCD hasRSSI e := by
  unfold hopBody
  simp only
  by_cases h1 : (R.setFrequency m.startFrequency m.radioToUse st.radio).1 ≠ E.ERR_NONE
  · rw [if_pos h1]
    exact ⟨[Event.setFrequency m.startFrequency m.radioToUse], rfl, by simp [HopEvent]⟩
  · rw [if_neg h1]
    by_cases h2 : (hasCD && !hasRSSI) = true
    · rw [if_pos h2]
      refine ⟨[Event.setFrequency m.startFrequency m.radioToUse,
          Event.setMode Mode.rfquack_Mode_RX m.radioToUse,
          Event.isCarrierDetected m.radioToUse,
          Event.setMode Mode.rfquack_Mode_IDLE m.radioToUse], by simp, ?_⟩
      intro e he
      simp only [List.mem_cons, List.mem_singleton, List.not_mem_nil, or_false] at he
      unfold HopEvent
      rcases he with rfl | rfl | rfl | rfl <;> simp [h2]
    · rw [if_neg h2]
      refine ⟨[Event.setFrequency m.startFrequency m.radioToUse,
          Event.setMode Mode.rfquack_Mode_RX m.radioToUse,
          Event.getRSSI m.radioToUse,
          Event.setMode Mode.rfquack_Mode_IDLE m.radioToUse], by simp, ?_⟩
      intro e he
      simp only [List.mem_cons, List.mem_singleton, List.not_mem_nil, or_false] at he
      unfold HopEvent
      rcases he with rfl | rfl | rfl | rfl <;> simp [h2]

/-- An entry with a nonzero score carries the index of its own slot (as a `uint8_t`). -/
def HopFieldInv (results : List Item) : Prop :=
  ∀ (j : Nat) (it : Item), results.get? j = some it → it.detections ≠ 0 → it.hop = toUint8 j

theorem hopFieldInv_modify (results : List Item) (hop : Nat) (f : ℚ → ℚ)
    (h : HopFieldInv results) :
    HopFieldInv (results.modify
      (fun it => { hop := toUint8 hop, detections := f it.detections }) hop) := by
  intro j it hj hne
  rw [List.get?_eq_getElem?, List.getElem?_modify] at hj
  by_cases hjh : hop = j
  · subst hjh
    simp only [if_true] at hj
    cases hr : results[hop]? with
    | none => rw [hr] at hj; simp at hj
    | some x =>
      rw [hr] at hj
      simp only [Option.map_eq_map, Option.map_some', Option.some.injEq] at hj
      rw [← hj]
  · simp only [hjh, if_false] at hj
    exact h j it (by rw [List.get?_eq_getElem?]; simpa using hj) hne

theorem hopBody_hopFieldInv {σ : Type} (E : ErrorCodes) (R : RFQRadio σ)
    (m : FrequencyScannerModule) (hasCD hasRSSI : Bool) (st : SweepState σ) (hop : Nat)
    (h : HopFieldInv st.results) :
    HopFieldInv (hopBody E R m hasCD hasRSSI st hop).results := by
  unfold hopBody
  simp only
  by_cases h1 : (R.setFrequency m.startFrequency m.radioToUse st.radio).1 ≠ E.ERR_NONE
  · rw [if_pos h1]; exact h
  · rw [if_neg h1]
    by_cases h2 : (hasCD && !hasRSSI) = true
    · rw [if_pos h2]
      simp only
      split_ifs
      · exact hopFieldInv_modify _ _ (fun d => d + 1) h
      · exact h
    · rw [if_neg h2]
      exact hopFieldInv_modify _ _ (fun d => f32 (d + _)) h

theorem afterSweep_length {σ : Type} (E : ErrorCodes) (R : RFQRadio σ)
    (m : FrequencyScannerModule) (s0 : σ) (hops : Nat) :
    (afterSweep E R m s0 hops).results.length = hops := by
  unfold afterSweep
  apply sweep_induction E R m _ _ hops (fun st => st.results.length = hops)
  · intro st hop _ hst
    rw [hopBody_length]; exact hst
  · simp

theorem afterSweep_hopFieldInv {σ : Type} (E : ErrorCodes) (R : RFQRadio σ)
    (m : FrequencyScannerModule) (s0 : σ) (hops : Nat) :
    HopFieldInv (afterSweep E R m s0 hops).results := by
  unfold afterSweep
  apply sweep_induction E R m _ _ hops (fun st => HopFieldInv st.results)
  · intro st hop _ hst
    exact hopBody_hopFieldInv E R m _ _ st hop hst
  · intro j it hj hne
    rw [List.get?_eq_getElem?, List.getElem?_replicate] at hj
    split_ifs at hj
    simp only [Option.some.injEq] at hj
    rw [← hj] at hne
    exact absurd rfl hne

theorem afterSweep_log {σ : Type} (E : ErrorCodes) (R : RFQRadio σ)
    (m : FrequencyScannerModule) (s0 : σ) (hops : Nat) :
    ∃ ext, (afterSweep E R m s0 hops).log = logBeforeSweep m hops ++ ext ∧
      ∀ e ∈ ext, HopEvent m (hasCD E R m s0) (hasRSSI E R m s0) e := by
  unfold afterSweep
  apply sweep_induction E R m _ _ hops
    (fun st => ∃ ext, st.log = logBeforeSweep m hops ++ ext ∧
      ∀ e ∈ ext, HopEvent m (hasCD E R m s0) (hasRSSI E R m s0) e)
  · intro st hop _ hst
    obtain ⟨ext, hext, hall⟩ := hst
    obtain ⟨ext2, hext2, hall2⟩ := hopBody_log E R m (hasCD E R m s0) (hasRSSI E R m s0) st hop
    refine ⟨ext ++ ext2, by rw [hext2, hext, List.append_assoc], ?_⟩
    intro e he
    rcases List.mem_append.mp he with he | he
    · exact hall e he
    · exact hall2 e he
  · exact ⟨[], by simp, by simp⟩

/-! ## Properties of the report loop -/

/-- The value argument of a per-result message (lines 167 and 171). -/
def reportedValue (m : FrequencyScannerModule) (hasCD hasRSSI : Bool) (it : Item) : ℚ :=
  if hasCD && !hasRSSI then it.detections else f32 (it.detections / m.rounds)

theorem reportLoop_pairs (m : FrequencyScannerModule) (hasCD hasRSSI : Bool)
    (results : List Item) :
    ∀ (idx sentItems : Nat) (p : Item × FrequencyReply),
      p ∈ (reportLoop m hasCD hasRSSI results idx sentItems).1 →
        p.1.detections ≠ 0 ∧ p.2.carrier = (hasCD && !hasRSSI) ∧
        p.2.value = reportedValue m hasCD hasRSSI p.1 ∧
        toUnsigned 32 (reportFrequency m p.1) = some p.2.frequency ∧
        p.2.frequency < (if hasCD && !hasRSSI then 10 ^ 7 else 2 ^ 31) := by
  intro idx
  induction idx with
  | zero => intro s p hp; simp [reportLoop] at hp
  | succ i ih =>
    intro s p hp
    rw [reportLoop] at hp
    split at hp
    · simp at hp
    · rename_i it hit
      by_cases hc : s < 10 ∧ it.detections ≠ 0
      · rw [if_pos hc] at hp
        split at hp
        · simp at hp
        · rename_i frequency hf
          by_cases hmode : (hasCD && !hasRSSI) = true
          · rw [if_pos hmode] at hp
            by_cases hbuf : 10 ^ 7 ≤ frequency
            · rw [if_pos hbuf] at hp; simp at hp
            · rw [if_neg hbuf] at hp
              rcases List.mem_cons.mp hp with rfl | hp
              · exact ⟨hc.2, by simp [hmode], by simp [reportedValue, hmode], hf,
                  by rw [if_pos hmode]; exact not_le.mp hbuf⟩
              · exact ih _ _ hp
          · rw [if_neg hmode] at hp
            by_cases hfmt : 2 ^ 31 ≤ frequency
            · rw [if_pos hfmt] at hp; simp at hp
            · rw [if_neg hfmt] at hp
              by_cases hr : m.rounds = 0
              · rw [if_pos hr] at hp; simp at hp
              · rw [if_neg hr] at hp
                rcases List.mem_cons.mp hp with rfl | hp
                · exact ⟨hc.2, by simp [hmode], by simp [reportedValue, hmode], hf,
                    by rw [if_neg hmode]; exact not_le.mp hfmt⟩
                · exact ih _ _ hp
      · rw [if_neg hc] at hp; simp at hp

theorem reportLoop_sublist (m : FrequencyScannerModule) (hasCD hasRSSI : Bool)
    (results : List Item) :
    ∀ (idx sentItems : Nat),
      ((reportLoop m hasCD hasRSSI results idx sentItems).1.map Prod.fst).Sublist
        (results.take (idx + 1)).reverse := by
  intro idx
  induction idx with
  | zero => intro s; simp [reportLoop]
  | succ i ih =>
    intro s
    rw [reportLoop]
    split
    · simp
    · rename_i it hit
      have htake : (results.take (i + 1 + 1)).reverse
          = it :: (results.take (i + 1)).reverse := by
        rw [List.take_succ, ← List.get?_eq_getElem?, hit]
        simp
      rw [htake]
      by_cases hc : s < 10 ∧ it.detections ≠ 0
      · rw [if_pos hc]
        split
        · simp
        · rename_i frequency hf
          by_cases hmode : (hasCD && !hasRSSI) = true
          · rw [if_pos hmode]
            by_cases hbuf : 10 ^ 7 ≤ frequency
            · rw [if_pos hbuf]; simp
            · rw [if_neg hbuf]
              simp only [List.map_cons]
              exact (ih _).cons₂ _
          · rw [if_neg hmode]
            by_cases hfmt : 2 ^ 31 ≤ frequency
            · rw [if_pos hfmt]; simp
            · rw [if_neg hfmt]
              by_cases hr : m.rounds = 0
              · rw [if_pos hr]; simp
              · rw [if_neg hr]
                simp only [List.map_cons]
                exact (ih _).cons₂ _
      · rw [if_neg hc]; simp

/-! ## The run of `start` -/

/-- All validation checks of `start` pass: both tuning probes succeed, the range is not
empty, the step is not rejected, and the radio has RSSI or carrier detection. -/
def Accepted {σ : Type} (E : ErrorCodes) (R : RFQRadio σ) (m : FrequencyScannerModule)
    (s0 : σ) : Prop :=
  probeStart R m s0 = E.ERR_NONE ∧ probeEnd R m s0 = E.ERR_NONE ∧
  m.startFrequency < m.endFrequency ∧ ¬ m.frequencyStep < 0 ∧
  (hasCD E R m s0 = true ∨ hasRSSI E R m s0 = true)

instance {σ : Type} (E : ErrorCodes) (R : RFQRadio σ) (m : FrequencyScannerModule)
    (s0 : σ) : Decidable (Accepted E R m s0) := by
  unfold Accepted
  infer_instance

theorem start_of_accepted {σ : Type} (E : ErrorCodes) (R : RFQRadio σ)
    (m : FrequencyScannerModule) (s0 : σ) (hops : Nat)
    (hacc : Accepted E R m s0) (hh : computeHops m = some hops) :
    start E R m s0
      = report R m (hasCD E R m s0) (hasRSSI E R m s0) hops (afterSweep E R m s0 hops) := by
  obtain ⟨h1, h2, h3, h4, h5⟩ := hacc
  unfold start
  simp only
  rw [if_neg (by simp [h1]), if_neg (by simp [h2, not_le.mpr h3]), if_neg h4, if_neg, hh]
  rcases h5 with h5 | h5 <;> simp [h5]

theorem toUint8_pred (hops : Nat) (h : hops % 256 ≠ 0) :
    toUint8 ((hops : Int) - 1) = hops % 256 - 1 := by
  unfold toUint8; omega

theorem toUint8_pred_lt (hops : Nat) (h : 1 ≤ hops) :
    toUint8 ((hops : Int) - 1) < hops := by
  unfold toUint8; omega

theorem toUint8_of_lt (j : Nat) (h : j < 256) : toUint8 (j : Int) = j := by
  unfold toUint8; omega

theorem start_of_undefined_hops {σ : Type} (E : ErrorCodes) (R : RFQRadio σ)
    (m : FrequencyScannerModule) (s0 : σ)
    (hacc : Accepted E R m s0) (hh : computeHops m = none) :
    (start E R m s0).log
        = [Event.setFrequency m.startFrequency m.radioToUse,
           Event.setFrequency m.endFrequency m.radioToUse,
           Event.getRSSI m.radioToUse, Event.isCarrierDetected m.radioToUse,
           Event.setEnabled true] ∧
      (start E R m s0).sent = [] ∧ (start E R m s0).reported = [] ∧
      (start E R m s0).reply = none := by
  obtain ⟨h1, h2, h3, h4, h5⟩ := hacc
  unfold start
  simp only
  rw [if_neg (by simp [h1]), if_neg (by simp [h2, not_le.mpr h3]), if_neg h4, if_neg, hh]
  · simp
  · rcases h5 with h5 | h5 <;> simp [h5]

/-- The log of the report phase: the sweep's log, the write of `enabled`, and on the
path that reaches the end of `start` the release of the array and of promiscuous mode. -/
theorem report_log {σ : Type} (R : RFQRadio σ) (m : FrequencyScannerModule)
    (hasCD hasRSSI : Bool) (hops : Nat) (st : SweepState σ) :
    (report R m hasCD hasRSSI hops st).log = st.log ++ [Event.setEnabled false] ∨
    (report R m hasCD hasRSSI hops st).log
      = st.log ++ [Event.setEnabled false, Event.deleteResults,
                   Event.setPromiscuousMode false m.radioToUse] := by
  unfold report
  simp only
  split
  · left; rfl
  · split_ifs
    · left; rfl
    · split
      · left; rfl
      · right; simp

/-- The entries reported and the messages sent by the report phase are those of the
report loop run from `itemIndex = (uint8_t)(hops - 1)` on the sorted array, or none. -/
theorem report_sent {σ : Type} (R : RFQRadio σ) (m : FrequencyScannerModule)
    (hasCD hasRSSI : Bool) (hops : Nat) (st : SweepState σ) :
    ((report R m hasCD hasRSSI hops st).reported = [] ∧
      (report R m hasCD hasRSSI hops st).sent = []) ∨
    ((report R m hasCD hasRSSI hops st).reported
        = (reportLoop m hasCD hasRSSI (bubbleSort st.results hops)
            (toUint8 ((hops : Int) - 1)) 0).1.map Prod.fst ∧
      (report R m hasCD hasRSSI hops st).sent
        = (reportLoop m hasCD hasRSSI (bubbleSort st.results hops)
            (toUint8 ((hops : Int) - 1)) 0).1.map Prod.snd) := by
  unfold report
  simp only
  split
  · left; exact ⟨rfl, rfl⟩
  · split_ifs
    · left; exact ⟨rfl, rfl⟩
    · split
      · right; exact ⟨rfl, rfl⟩
      · right; exact ⟨rfl, rfl⟩

theorem report_sent_carrier {σ : Type} (R : RFQRadio σ) (m : FrequencyScannerModule)
    (hasCD hasRSSI : Bool) (hops : Nat) (st : SweepState σ) :
    ∀ r ∈ (report R m hasCD hasRSSI hops st).sent, r.carrier = (hasCD && !hasRSSI) := by
  intro r hr
  rcases report_sent R m hasCD hasRSSI hops st with ⟨_, h⟩ | ⟨_, h⟩
  · rw [h] at hr; simp at hr
  · rw [h] at hr
    obtain ⟨p, hp, rfl⟩ := List.mem_map.mp hr
    exact (reportLoop_pairs m hasCD hasRSSI _ _ _ p hp).2.1

/-- The log of an accepted run with a defined hop count: the validation prefix, what
the hops of the sweep added, and the tail written by the report phase. -/
theorem start_log_of_accepted {σ : Type} (E : ErrorCodes) (R : RFQRadio σ)
    (m : FrequencyScannerModule) (s0 : σ) (hops : Nat)
    (hacc : Accepted E R m s0) (hh : computeHops m = some hops) :
    ∃ ext tail, (start E R m s0).log = logBeforeSweep m hops ++ ext ++ tail ∧
      (∀ e ∈ ext, HopEvent m (hasCD E R m s0) (hasRSSI E R m s0) e) ∧
      (tail = [Event.setEnabled false] ∨
        tail = [Event.setEnabled false, Event.deleteResults,
                Event.setPromiscuousMode false m.radioToUse]) := by
  rw [start_of_accepted E R m s0 hops hacc hh]
  obtain ⟨ext, hext, hall⟩ := afterSweep_log E R m s0 hops
  rcases report_log R m (hasCD E R m s0) (hasRSSI E R m s0) hops (afterSweep E R m s0 hops)
    with h | h
  · exact ⟨ext, _, by rw [h, hext], hall, Or.inl rfl⟩
  · exact ⟨ext, _, by rw [h, hext], hall, Or.inr rfl⟩

/-- In the part of the array that `bubbleSort` sorts, entries with nonzero score are
ordered by their `hop` field after the sweep. -/
theorem take_hop_order (acc : List Item) (s : Nat) (hs : s ≤ 256)
    (hinv : HopFieldInv acc) :
    (acc.take s).Pairwise
      (fun a b => a.detections ≠ 0 → b.detections ≠ 0 → a.hop < b.hop) := by
  rw [List.pairwise_iff_getElem]
  intro i j hi hj hij ha hb
  have hi2 : i < s := by rw [List.length_take] at hi; omega
  have hj2 : j < s := by rw [List.length_take] at hj; omega
  have hai : acc.get? i = some (acc.take s)[i] := by
    rw [List.get?_eq_getElem?, ← List.getElem?_take_of_lt hi2, List.getElem?_eq_getElem hi]
  have haj : acc.get? j = some (acc.take s)[j] := by
    rw [List.get?_eq_getElem?, ← List.getElem?_take_of_lt hj2, List.getElem?_eq_getElem hj]
  rw [hinv i _ hai ha, hinv j _ haj hb, toUint8_of_lt i (by omega), toUint8_of_lt j (by omega)]
  exact hij

/-- Stability carries the order of the `hop` fields of equal nonzero scores through the
sort. -/
theorem sorted_tie_order (T q : List Item)
    (hT : T.Pairwise (fun a b => a.detections ≠ 0 → b.detections ≠ 0 → a.hop < b.hop))
    (hfilter : ∀ key : ℚ, q.filter (fun it => decide (it.detections = key))
        = T.filter (fun it => decide (it.detections = key))) :
    q.Pairwise (fun a b => a.detections = b.detections → a.detections ≠ 0 → a.hop < b.hop) := by
  rw [List.pairwise_iff_forall_sublist]
  intro a b hab heq hne
  have hkey : (T.filter (fun it => decide (it.detections = a.detections))).Pairwise
      (fun x y => x.hop < y.hop) := by
    rw [List.pairwise_filter]
    refine hT.imp ?_
    intro x y hxy hx hy
    exact hxy (by rw [hx]; exact hne) (by rw [hy]; exact hne)
  rw [← hfilter, List.pairwise_filter, List.pairwise_iff_forall_sublist] at hkey
  exact hkey hab rfl heq.symm

/-! ## The claims -/

/-- C10. `onPacketReceived` answers "discard" (`false`) exactly for the radio under
test and "pass-through" (`true`) for any other radio, whatever the packet, and it
returns the module unchanged. -/
theorem onPacketReceived_policy {P : Type} (m : FrequencyScannerModule) (pkt pkt2 : P)
    (w : WhichRadio) :
    ((onPacketReceived m pkt w).1 = false ↔ w = m.radioToUse) ∧
    ((onPacketReceived m pkt w).1 = true ↔ w ≠ m.radioToUse) ∧
    (onPacketReceived m pkt w).1 = (onPacketReceived m pkt2 w).1 ∧
    (onPacketReceived m pkt w).2 = m := by
  unfold onPacketReceived
  simp

/-- C4. `start` replies with a range error exactly when the tuning probe of
`startFrequency` fails, or the tuning probe of `endFrequency` fails, or
`endFrequency <= startFrequency`; the text is "startFrequency is not valid" in the first
case and "endFrequency is not valid" in the other two, and in all three the run stops
after the probes: nothing is allocated, swept, reported or sent. -/
theorem range_validation {σ : Type} (E : ErrorCodes) (R : RFQRadio σ)
    (m : FrequencyScannerModule) (s0 : σ) :
    ((∃ r, (start E R m s0).reply = some r ∧
          (r.message = msgStartInvalid ∨ r.message = msgEndInvalid)) ↔
        (probeStart R m s0 ≠ E.ERR_NONE ∨ probeEnd R m s0 ≠ E.ERR_NONE ∨
          m.endFrequency ≤ m.startFrequency)) ∧
    (probeStart R m s0 ≠ E.ERR_NONE →
        (start E R m s0).reply = some ⟨msgStartInvalid, some 1⟩ ∧
        (start E R m s0).log = [Event.setFrequency m.startFrequency m.radioToUse] ∧
        (start E R m s0).sent = [] ∧ (start E R m s0).module = m) ∧
    (probeStart R m s0 = E.ERR_NONE →
      (probeEnd R m s0 ≠ E.ERR_NONE ∨ m.endFrequency ≤ m.startFrequency) →
        (start E R m s0).reply = some ⟨msgEndInvalid, some 1⟩ ∧
        (start E R m s0).log = [Event.setFrequency m.startFrequency m.radioToUse,
                                Event.setFrequency m.endFrequency m.radioToUse] ∧
        (start E R m s0).sent = [] ∧ (start E R m s0).module = m) := by
  have hA : probeStart R m s0 ≠ E.ERR_NONE →
      (start E R m s0).reply = some ⟨msgStartInvalid, some 1⟩ ∧
      (start E R m s0).log = [Event.setFrequency m.startFrequency m.radioToUse] ∧
      (start E R m s0).sent = [] ∧ (start E R m s0).module = m := by
    intro h
    unfold start
    simp only
    rw [if_pos h]
    exact ⟨rfl, rfl, rfl, rfl⟩
  have hB : probeStart R m s0 = E.ERR_NONE →
      (probeEnd R m s0 ≠ E.ERR_NONE ∨ m.endFrequency ≤ m.startFrequency) →
      (start E R m s0).reply = some ⟨msgEndInvalid, some 1⟩ ∧
      (start E R m s0).log = [Event.setFrequency m.startFrequency m.radioToUse,
                              Event.setFrequency m.endFrequency m.radioToUse] ∧
      (start E R m s0).sent = [] ∧ (start E R m s0).module = m := by
    intro h1 h2
    unfold start
    simp only
    rw [if_neg (by simp [h1]), if_pos h2]
    exact ⟨rfl, rfl, rfl, rfl⟩
  refine ⟨⟨?_, ?_⟩, hA, hB⟩
  · rintro ⟨r, hr, hmsg⟩
    by_contra hcon
    push_neg at hcon
    obtain ⟨h1, h2, h3⟩ := hcon
    unfold start at hr
    simp only at hr
    rw [if_neg (by simp [h1]), if_neg (by simp [h2, h3])] at hr
    split_ifs at hr with h4 h5
    · simp only [Option.some.injEq] at hr
      rw [← hr] at hmsg
      revert hmsg
      simp only [msgStepInvalid, msgStartInvalid, msgEndInvalid]
      decide
    · simp only [Option.some.injEq] at hr
      rw [← hr] at hmsg
      revert hmsg
      simp only [msgUnsupported, msgStartInvalid, msgEndInvalid]
      decide
    · split at hr
      · simp at hr
      · rename_i hops hh
        unfold report at hr
        simp only at hr
        split at hr
        · simp at hr
        · split_ifs at hr
          · simp only [Option.some.injEq] at hr
            rw [← hr] at hmsg
            revert hmsg
            simp only [msgNothing, msgStartInvalid, msgEndInvalid]
            decide
          · split at hr
            · simp at hr
            · simp only [Option.some.injEq] at hr
              rw [← hr] at hmsg
              revert hmsg
              simp only [msgTop10, msgStartInvalid, msgEndInvalid]
              decide
  · intro h
    by_cases h1 : probeStart R m s0 = E.ERR_NONE
    · have h2 : probeEnd R m s0 ≠ E.ERR_NONE ∨ m.endFrequency ≤ m.startFrequency := by
        rcases h with h | h | h
        · exact absurd h1 h
        · exact Or.inl h
        · exact Or.inr h
      exact ⟨_, (hB h1 h2).1, Or.inr rfl⟩
    · exact ⟨_, (hA h1).1, Or.inl rfl⟩

/-- C9. In an accepted scan with at least one hop in which every accumulated score is
zero after the sweep, `start` sends no per-result message and replies "Nothing
detected". -/
theorem nothing_detected {σ : Type} (E : ErrorCodes) (R : RFQRadio σ)
    (m : FrequencyScannerModule) (s0 : σ) (hops : Nat)
    (hacc : Accepted E R m s0) (hh : computeHops m = some hops) (h1 : 1 ≤ hops)
    (hz : ∀ it ∈ (afterSweep E R m s0 hops).results, it.detections = 0) :
    (start E R m s0).sent = [] ∧
    (start E R m s0).reply = some ⟨msgNothing, none⟩ ∧
    (start E R m s0).fault = none := by
  rw [start_of_accepted E R m s0 hops hacc hh]
  have hlen := afterSweep_length E R m s0 hops
  have hperm := bubbleSort_perm (afterSweep E R m s0 hops).results hops
    (by rw [hlen]; exact Nat.mod_le _ _)
  have hidx : toUint8 ((hops : Int) - 1)
      < (bubbleSort (afterSweep E R m s0 hops).results hops).length := by
    rw [hperm.length_eq, hlen]; exact toUint8_pred_lt hops h1
  have hget := List.get?_eq_get hidx
  have htop : ((bubbleSort (afterSweep E R m s0 hops).results hops).get
      ⟨toUint8 ((hops : Int) - 1), hidx⟩).detections = 0 :=
    hz _ (hperm.mem_iff.mp (List.get_mem _ _ _))
  unfold report
  simp only [hget, htop, if_true]
  simp

/-- C7, as amended. In an accepted scan whose hop count is not a multiple of 256, the
entries reported by `start`, in sending order, have non-increasing scores (and so have
the values sent with them, in both modes); two reported entries with the same score
appear in descending hop-index order; and every reported entry has a nonzero score and is
the accumulator entry of the hop it names. -/
theorem reported_order {σ : Type} (E : ErrorCodes) (R : RFQRadio σ)
    (m : FrequencyScannerModule) (s0 : σ) (hops : Nat)
    (hacc : Accepted E R m s0) (hh : computeHops m = some hops) (h256 : hops % 256 ≠ 0) :
    (start E R m s0).reported.Pairwise (fun a b => b.detections ≤ a.detections) ∧
    (start E R m s0).reported.Pairwise
      (fun a b => a.detections = b.detections → b.hop < a.hop) ∧
    (∀ it ∈ (start E R m s0).reported, it.detections ≠ 0 ∧
      (afterSweep E R m s0 hops).results.get? it.hop = some it) ∧
    (start E R m s0).sent.map (fun r => r.value)
      = (start E R m s0).reported.map
          (reportedValue m (hasCD E R m s0) (hasRSSI E R m s0)) := by
  rw [start_of_accepted E R m s0 hops hacc hh]
  have hlen := afterSweep_length E R m s0 hops
  have hinv := afterSweep_hopFieldInv E R m s0 hops
  generalize (afterSweep E R m s0 hops) = st at hlen hinv ⊢
  generalize hasCD E R m s0 = c
  generalize hasRSSI E R m s0 = r
  have hs : hops % 256 ≤ st.results.length := by rw [hlen]; exact Nat.mod_le _ _
  obtain ⟨q, hq, hperm, hsorted, hfilter⟩ := bubbleSort_spec st.results hops hs
  have hqlen : q.length = hops % 256 := by
    rw [hperm.length_eq, List.length_take]; omega
  have hties := sorted_tie_order _ q
    (take_hop_order st.results (hops % 256) (by omega) hinv) hfilter
  rcases report_sent R m c r hops st with ⟨hrep, hsent⟩ | ⟨hrep, hsent⟩
  · rw [hrep, hsent]
    simp
  · rw [hrep, hsent]
    have hpairs := reportLoop_pairs m c r (bubbleSort st.results hops)
      (toUint8 ((hops : Int) - 1)) 0
    have hsub := reportLoop_sublist m c r (bubbleSort st.results hops)
      (toUint8 ((hops : Int) - 1)) 0
    have hidx : toUint8 ((hops : Int) - 1) + 1 = hops % 256 := by
      rw [toUint8_pred hops h256]; omega
    rw [hidx, hq, List.take_left' hqlen] at hsub
    have hnz : ∀ it ∈ (reportLoop m c r (q ++ List.drop (hops % 256) st.results)
        (toUint8 ((hops : Int) - 1)) 0).1.map Prod.fst, it.detections ≠ 0 := by
      intro it hit
      obtain ⟨p, hp, rfl⟩ := List.mem_map.mp hit
      rw [hq] at hpairs
      exact (hpairs p hp).1
    rw [hq]
    refine ⟨?_, ?_, ?_, ?_⟩
    · exact (List.pairwise_reverse.mpr hsorted).sublist hsub
    · have h1 := (List.pairwise_reverse.mpr hties).sublist hsub
      refine List.Pairwise.imp_of_mem ?_ h1
      intro a b _ hb hab heq
      exact hab heq.symm (hnz b hb)
    · intro it hit
      refine ⟨hnz it hit, ?_⟩
      have hmem : it ∈ st.results.take (hops % 256) :=
        hperm.mem_iff.mp (List.mem_reverse.mp (hsub.subset hit))
      obtain ⟨j, hj, hjeq⟩ := List.getElem_of_mem hmem
      have hj2 : j < hops % 256 := by rw [List.length_take] at hj; omega
      have hget : st.results.get? j = some it := by
        rw [List.get?_eq_getElem?, ← List.getElem?_take_of_lt hj2,
          List.getElem?_eq_getElem hj, hjeq]
      rw [hinv j it hget (hnz it hit), toUint8_of_lt j (by omega)]
      exact hget
    · rw [List.map_map, List.map_map]
      apply List.map_congr_left
      intro p hp
      rw [hq] at hpairs
      exact (hpairs p hp).2.2.1

/-- C1 (the code departs from it). With `start = 2400`, `end = 2410`, `step = 2` and one
round, the five tuning requests of the sweep (the log after the six events that precede
the sweep) all ask for `startFrequency = 2400`; the hop frequencies 2402 .. 2408 are
never requested. -/
theorem sweep_requests_startFrequency_only :
    computeHops (scanConfig 2410 2 1) = some 5 ∧
    tuningRequests
        ((start exampleCodes (carrierRadio (fun _ => false)) (scanConfig 2410 2 1) 0).log.drop 6)
      = [2400, 2400, 2400, 2400, 2400] := by
  decide!

/-- C3 (the code departs from it). With `frequencyStep = 0` and a valid range, `start`
does not reply "Frequency step must be positive": it goes on to the capability probes,
sets `enabled`, and reaches the hop-count division with a zero divisor. -/
theorem zero_step_not_rejected :
    (start exampleCodes (carrierRadio (fun _ => false)) (scanConfig 2410 0 1) 0).reply = none ∧
    (start exampleCodes (carrierRadio (fun _ => false)) (scanConfig 2410 0 1) 0).fault
      = some Fault.undefinedConversion ∧
    (start exampleCodes (carrierRadio (fun _ => false)) (scanConfig 2410 0 1) 0).module.enabled
      = true ∧
    (start exampleCodes (carrierRadio (fun _ => false)) (scanConfig 2410 0 1) 0).log
      = [Event.setFrequency 2400 0, Event.setFrequency 2410 0, Event.getRSSI 0,
         Event.isCarrierDetected 0, Event.setEnabled true] := by
  decide!

/-- C5 (the code departs from it). With `start = 2400`, `end = 2401`, `step = 2` the hop
count is `0`; `start` reports no error: it allocates an empty array and reads entry
`255` of it. -/
theorem zero_hops_reads_outside :
    Accepted exampleCodes (carrierRadio (fun _ => false)) (scanConfig 2401 2 1) 0 ∧
    computeHops (scanConfig 2401 2 1) = some 0 ∧
    (start exampleCodes (carrierRadio (fun _ => false)) (scanConfig 2401 2 1) 0).reply = none ∧
    (start exampleCodes (carrierRadio (fun _ => false)) (scanConfig 2401 2 1) 0).fault
      = some (Fault.outOfBounds 255 0) := by
  decide!

/-- C6 (the code departs from it). With three hops that all have a nonzero score, `start`
sends two messages, not three: the entry at index `0` of the sorted array is never
reported. -/
theorem index_zero_not_reported :
    (afterSweep exampleCodes (carrierRadio (fun _ => true)) (scanConfig 2406 2 1) 0 3).results
      = [⟨0, 1⟩, ⟨1, 1⟩, ⟨2, 1⟩] ∧
    (start exampleCodes (carrierRadio (fun _ => true)) (scanConfig 2406 2 1) 0).sent
      = [⟨2404000, true, 1⟩, ⟨2402000, true, 1⟩] ∧
    (start exampleCodes (carrierRadio (fun _ => true)) (scanConfig 2406 2 1) 0).reply
      = some ⟨msgTop10, none⟩ := by
  decide!

/-- C7 is false as stated: with a carrier at each of five hops, the four reported
entries have the same score and are sent in descending hop order 4, 3, 2, 1. -/
theorem reported_ties_not_ascending :
    (start exampleCodes (carrierRadio (fun _ => true)) (scanConfig 2410 2 1) 0).reported
      = [⟨4, 1⟩, ⟨3, 1⟩, ⟨2, 1⟩, ⟨1, 1⟩] ∧
    ¬ (start exampleCodes (carrierRadio (fun _ => true)) (scanConfig 2410 2 1) 0).reported.Pairwise
        (fun a b => a.detections = b.detections → a.hop < b.hop) := by
  decide!

/-- When the hop count is a multiple of 256 the `uint8_t` size handed to `bubbleSort` is
`0` and the array is reported unsorted: with 256 hops and RSSI readings `2` at hop 254
and `1` at hop 255, the entries are sent with scores 1 then 2. -/
theorem unsorted_report_at_256_hops :
    computeHops (scanConfig 2656 1 1) = some 256 ∧
    (start exampleCodes
        (rssiRadio (fun k => if k = 255 then 2 else if k = 256 then 1 else 0))
        (scanConfig 2656 1 1) 0).reported = [⟨255, 1⟩, ⟨254, 2⟩] := by
  decide!

/-- C8 (the code departs from it). With 258 hops and RSSI readings `1` at hop 1, `9` at
hop 5 and `0` elsewhere, the first (and only) message reports hop 1 with value `1`,
while the largest accumulated score is the `9` of hop 5. -/
theorem first_message_not_maximum :
    computeHops (scanConfig 2658 1 1) = some 258 ∧
    (afterSweep exampleCodes
        (rssiRadio (fun k => if k = 2 then 1 else if k = 6 then 9 else 0))
        (scanConfig 2658 1 1) 0 258).results.get? 5 = some ⟨5, 9⟩ ∧
    (start exampleCodes
        (rssiRadio (fun k => if k = 2 then 1 else if k = 6 then 9 else 0))
        (scanConfig 2658 1 1) 0).sent = [⟨2401000, false, 1⟩] := by
  decide!

/-- C9 at a concrete run: a carrier-detect radio that never sees a carrier, five hops,
one round. -/
theorem nothing_detected_witness :
    Accepted exampleCodes (carrierRadio (fun _ => false)) (scanConfig 2410 2 1) 0 ∧
    computeHops (scanConfig 2410 2 1) = some 5 ∧
    (∀ it ∈ (afterSweep exampleCodes (carrierRadio (fun _ => false))
        (scanConfig 2410 2 1) 0 5).results, it.detections = 0) ∧
    (start exampleCodes (carrierRadio (fun _ => false)) (scanConfig 2410 2 1) 0).sent = [] ∧
    (start exampleCodes (carrierRadio (fun _ => false)) (scanConfig 2410 2 1) 0).reply
      = some ⟨msgNothing, none⟩ ∧
    (start exampleCodes (carrierRadio (fun _ => false)) (scanConfig 2410 2 1) 0).fault = none :=
  ⟨by decide!, by decide!, by decide!,
    nothing_detected exampleCodes (carrierRadio (fun _ => false)) (scanConfig 2410 2 1) 0 5
      (by decide!) (by decide!) (by decide) (by decide!)⟩

/-- Amended C7 at a concrete run: RSSI readings 1, 3, 3, 7, 1 at hops 0 .. 4; the
entries reported are hop 3 (score 7), hops 2 and 1 (score 3 each), hop 4 (score 1). -/
theorem reported_order_witness :
    Accepted exampleCodes
      (rssiRadio (fun k => if k = 2 then 3 else if k = 3 then 3 else if k = 4 then 7 else 1))
      (scanConfig 2410 2 1) 0 ∧
    computeHops (scanConfig 2410 2 1) = some 5 ∧
    (start exampleCodes
      (rssiRadio (fun k => if k = 2 then 3 else if k = 3 then 3 else if k = 4 then 7 else 1))
      (scanConfig 2410 2 1) 0).reported = [⟨3, 7⟩, ⟨2, 3⟩, ⟨1, 3⟩, ⟨4, 1⟩] ∧
    (start exampleCodes
      (rssiRadio (fun k => if k = 2 then 3 else if k = 3 then 3 else if k = 4 then 7 else 1))
      (scanConfig 2410 2 1) 0).reported.Pairwise (fun a b => b.detections ≤ a.detections) ∧
    (start exampleCodes
      (rssiRadio (fun k => if k = 2 then 3 else if k = 3 then 3 else if k = 4 then 7 else 1))
      (scanConfig 2410 2 1) 0).reported.Pairwise
        (fun a b => a.detections = b.detections → b.hop < a.hop) :=
  ⟨by decide!, by decide!, by decide!,
    (reported_order exampleCodes
      (rssiRadio (fun k => if k = 2 then 3 else if k = 3 then 3 else if k = 4 then 7 else 1))
      (scanConfig 2410 2 1) 0 5 (by decide!) (by decide!) (by decide)).1,
    (reported_order exampleCodes
      (rssiRadio (fun k => if k = 2 then 3 else if k = 3 then 3 else if k = 4 then 7 else 1))
      (scanConfig 2410 2 1) 0 5 (by decide!) (by decide!) (by decide)).2.1⟩

end RFQuack

namespace RFQuack

/-! ## Points of the sweep -/

/-- Sweep state when the sweep begins (after lines 94-99): the radio as the capability
probes left it, the log up to `new Item[hops]`, and the zeroed result array. -/
def beforeSweep {σ : Type} (R : RFQRadio σ) (m : FrequencyScannerModule) (s0 : σ)
    (hops : Nat) : SweepState σ :=
  { radio := radioAfterProbe R m s0,
    log := logBeforeSweep m hops,
    results := List.replicate hops ⟨0, 0⟩ }

/-- Sweep state at the top of the body of the hop loop for `(round, hop)`: `round` full
rounds and the first `hop` hops of the next round have run. -/
def sweepStateAt {σ : Type} (E : ErrorCodes) (R : RFQRadio σ) (m : FrequencyScannerModule)
    (s0 : σ) (hops round hop : Nat) : SweepState σ :=
  (List.range hop).foldl (hopBody E R m (hasCD E R m s0) (hasRSSI E R m s0))
    ((List.range round).foldl
      (fun st _ => sweepRound E R m (hasCD E R m s0) (hasRSSI E R m s0) hops st)
      (beforeSweep R m s0 hops))

/-- Whether the tuning request of line 109, issued in state `st`, succeeds. -/
def tuningSucceeds {σ : Type} (E : ErrorCodes) (R : RFQRadio σ)
    (m : FrequencyScannerModule) (st : SweepState σ) : Bool :=
  (R.setFrequency m.startFrequency m.radioToUse st.radio).1 == E.ERR_NONE

/-- The answer `isCarrierDetected` of line 123 for a hop whose body starts in state
`st`. -/
def carrierSeen {σ : Type} (R : RFQRadio σ) (m : FrequencyScannerModule)
    (st : SweepState σ) : Bool :=
  (R.isCarrierDetected m.radioToUse
    (R.setMode Mode.rfquack_Mode_RX m.radioToUse
      (R.setFrequency m.startFrequency m.radioToUse st.radio).2).2).1.2

/-- The reading `rssi` of line 132 for a hop whose body starts in state `st`. -/
def rssiRead {σ : Type} (R : RFQRadio σ) (m : FrequencyScannerModule)
    (st : SweepState σ) : ℚ :=
  (R.getRSSI m.radioToUse
    (R.setMode Mode.rfquack_Mode_RX m.radioToUse
      (R.setFrequency m.startFrequency m.radioToUse st.radio).2).2).1.2

/-- The `detections` that the body of the hop loop, started in state `st`, leaves in the
entry of its hop, given the value `d` it finds there (lines 127 and 134). -/
def hopUpdate {σ : Type} (E : ErrorCodes) (R : RFQRadio σ) (m : FrequencyScannerModule)
    (hasCD hasRSSI : Bool) (st : SweepState σ) (d : ℚ) : ℚ :=
  if tuningSucceeds E R m st then
    if hasCD && !hasRSSI then (if carrierSeen R m st then d + 1 else d)
    else f32 (d + rssiRead R m st)
  else d

/-- The accumulated score of hop `j`: `results[j].detections`. -/
def scoreAt (results : List Item) (j : Nat) : ℚ := (results.getD j default).detections

theorem afterSweep_eq_sweepStateAt {σ : Type} (E : ErrorCodes) (R : RFQRadio σ)
    (m : FrequencyScannerModule) (s0 : σ) (hops : Nat) :
    afterSweep E R m s0 hops = sweepStateAt E R m s0 hops m.rounds 0 := rfl

theorem sweepStateAt_zero_zero {σ : Type} (E : ErrorCodes) (R : RFQRadio σ)
    (m : FrequencyScannerModule) (s0 : σ) (hops : Nat) :
    sweepStateAt E R m s0 hops 0 0 = beforeSweep R m s0 hops := rfl

theorem sweepStateAt_succ_hop {σ : Type} (E : ErrorCodes) (R : RFQRadio σ)
    (m : FrequencyScannerModule) (s0 : σ) (hops round hop : Nat) :
    sweepStateAt E R m s0 hops round (hop + 1)
      = hopBody E R m (hasCD E R m s0) (hasRSSI E R m s0)
          (sweepStateAt E R m s0 hops round hop) hop := by
  unfold sweepStateAt
  rw [List.range_succ, List.foldl_append]
  rfl

theorem sweepStateAt_succ_round {σ : Type} (E : ErrorCodes) (R : RFQRadio σ)
    (m : FrequencyScannerModule) (s0 : σ) (hops round : Nat) :
    sweepStateAt E R m s0 hops (round + 1) 0 = sweepStateAt E R m s0 hops round hops := by
  unfold sweepStateAt
  rw [List.range_succ, List.foldl_append]
  rfl

/-- Any property of the sweep state that holds when the sweep begins and is kept by the
body of the hop loop holds at every point of the sweep. -/
theorem sweepStateAt_induction {σ : Type} (E : ErrorCodes) (R : RFQRadio σ)
    (m : FrequencyScannerModule) (s0 : σ) (hops : Nat) (P : SweepState σ → Prop)
    (h0 : P (beforeSweep R m s0 hops))
    (hstep : ∀ st hop, P st → P (hopBody E R m (hasCD E R m s0) (hasRSSI E R m s0) st hop))
    (round hop : Nat) : P (sweepStateAt E R m s0 hops round hop) := by
  have hhops : ∀ round, P (sweepStateAt E R m s0 hops round 0) →
      ∀ hop, P (sweepStateAt E R m s0 hops round hop) := by
    intro round hr hop
    induction hop with
    | zero => exact hr
    | succ h ih => rw [sweepStateAt_succ_hop]; exact hstep _ _ ih
  have hrounds : ∀ round, P (sweepStateAt E R m s0 hops round 0) := by
    intro round
    induction round with
    | zero => exact h0
    | succ r ih => rw [sweepStateAt_succ_round]; exact hhops r ih hops
  exact hhops round (hrounds round) hop

theorem sweepStateAt_length {σ : Type} (E : ErrorCodes) (R : RFQRadio σ)
    (m : FrequencyScannerModule) (s0 : σ) (hops round hop : Nat) :
    (sweepStateAt E R m s0 hops round hop).results.length = hops := by
  apply sweepStateAt_induction E R m s0 hops (fun st => st.results.length = hops)
  · simp [beforeSweep]
  · intro st hop hst
    rw [hopBody_length]; exact hst

/-- The result array after one hop body, in terms of the values the body reads. -/
theorem hopBody_results {σ : Type} (E : ErrorCodes) (R : RFQRadio σ)
    (m : FrequencyScannerModule) (hasCD hasRSSI : Bool) (st : SweepState σ) (hop : Nat) :
    (hopBody E R m hasCD hasRSSI st hop).results
      = if tuningSucceeds E R m st then
          if hasCD && !hasRSSI then
            if carrierSeen R m st then
              st.results.modify
                (fun it => { hop := toUint8 hop, detections := it.detections + 1 }) hop
            else st.results
          else
            st.results.modify
              (fun it => { hop := toUint8 hop,
                           detections := f32 (it.detections + rssiRead R m st) }) hop
        else st.results := by
  unfold hopBody tuningSucceeds carrierSeen rssiRead
  by_cases h1 : (R.setFrequency m.startFrequency m.radioToUse st.radio).1 = E.ERR_NONE
  · by_cases h2 : (hasCD && !hasRSSI) = true
    · simp only [h1, h2, ne_eq, not_true_eq_false, if_false, if_true, beq_self_eq_true]
    · simp only [h1, h2, ne_eq, not_true_eq_false, if_false, if_true, beq_self_eq_true]
      rfl
  · simp [h1]

theorem scoreAt_modify (results : List Item) (hop j : Nat) (f : ℚ → ℚ) (hn : Nat)
    (hj : j < results.length) :
    scoreAt (results.modify
        (fun it => { hop := hn, detections := f it.detections }) hop) j
      = if j = hop then f (scoreAt results j) else scoreAt results j := by
  unfold scoreAt
  rw [List.getD_eq_getElem?_getD, List.getD_eq_getElem?_getD, List.getElem?_modify,
    List.getElem?_eq_getElem hj]
  by_cases h : hop = j
  · subst h; simp
  · have h2 : ¬ j = hop := fun e => h e.symm
    simp [h, h2]

/-- One hop body replaces the score of its own hop by `hopUpdate` of it and leaves every
other score as it was. -/
theorem hopBody_scoreAt {σ : Type} (E : ErrorCodes) (R : RFQRadio σ)
    (m : FrequencyScannerModule) (hasCD hasRSSI : Bool) (st : SweepState σ) (hop j : Nat)
    (hj : j < st.results.length) :
    scoreAt (hopBody E R m hasCD hasRSSI st hop).results j
      = if j = hop then hopUpdate E R m hasCD hasRSSI st (scoreAt st.results j)
        else scoreAt st.results j := by
  rw [hopBody_results]
  unfold hopUpdate
  by_cases h1 : tuningSucceeds E R m st = true
  · rw [if_pos h1, if_pos h1]
    by_cases h2 : (hasCD && !hasRSSI) = true
    · rw [if_pos h2, if_pos h2]
      by_cases h3 : carrierSeen R m st = true
      · rw [if_pos h3, if_pos h3]
        exact scoreAt_modify _ _ _ (fun d => d + 1) _ hj
      · rw [if_neg h3, if_neg h3]; simp
    · rw [if_neg h2, if_neg h2]
      exact scoreAt_modify _ _ _ (fun d => f32 (d + rssiRead R m st)) _ hj
  · rw [if_neg h1, if_neg h1]; simp

theorem sweepStateAt_scoreAt_hops {σ : Type} (E : ErrorCodes) (R : RFQRadio σ)
    (m : FrequencyScannerModule) (s0 : σ) (hops round j : Nat) (hj : j < hops) :
    ∀ hop, scoreAt (sweepStateAt E R m s0 hops round hop).results j
      = if j < hop then
          hopUpdate E R m (hasCD E R m s0) (hasRSSI E R m s0)
            (sweepStateAt E R m s0 hops round j)
            (scoreAt (sweepStateAt E R m s0 hops round 0).results j)
        else scoreAt (sweepStateAt E R m s0 hops round 0).results j := by
  intro hop
  induction hop with
  | zero => simp
  | succ h ih =>
    rw [sweepStateAt_succ_hop, hopBody_scoreAt _ _ _ _ _ _ _ _
      (by rw [sweepStateAt_length]; exact hj), ih]
    by_cases h1 : j < h
    · have h2 : ¬ j = h := by omega
      have h3 : j < h + 1 := by omega
      simp [h1, h2, h3]
    · by_cases h2 : j = h
      · subst h2; simp
      · have h3 : ¬ j < h + 1 := by omega
        simp [h1, h2, h3]

/-- The score of hop `j` after `round` full rounds: the updates of the body of hop `j`,
one per round, applied in round order to `0`. -/
theorem sweepStateAt_scoreAt {σ : Type} (E : ErrorCodes) (R : RFQRadio σ)
    (m : FrequencyScannerModule) (s0 : σ) (hops j : Nat) (hj : j < hops) :
    ∀ round, scoreAt (sweepStateAt E R m s0 hops round 0).results j
      = (List.range round).foldl (fun d r =>
          hopUpdate E R m (hasCD E R m s0) (hasRSSI E R m s0)
            (sweepStateAt E R m s0 hops r j) d) 0 := by
  intro round
  induction round with
  | zero =>
    rw [sweepStateAt_zero_zero]
    simp [scoreAt, beforeSweep, List.getD_eq_getElem?_getD, List.getElem?_replicate, hj]
  | succ r ih =>
    rw [sweepStateAt_succ_round, sweepStateAt_scoreAt_hops E R m s0 hops r j hj hops, ih,
      List.range_succ, List.foldl_append]
    simp [hj]

theorem tuningRequests_append (l1 l2 : List Event) :
    tuningRequests (l1 ++ l2) = tuningRequests l1 ++ tuningRequests l2 := by
  induction l1 with
  | nil => rfl
  | cons e l ih =>
    cases e <;> simp [tuningRequests, ih]

theorem hopBody_tuningRequests {σ : Type} (E : ErrorCodes) (R : RFQRadio σ)
    (m : FrequencyScannerModule) (hasCD hasRSSI : Bool) (st : SweepState σ) (hop : Nat) :
    tuningRequests (hopBody E R m hasCD hasRSSI st hop).log
      = tuningRequests st.log ++ [m.startFrequency] := by
  unfold hopBody
  simp only
  by_cases h1 : (R.setFrequency m.startFrequency m.radioToUse st.radio).1 ≠ E.ERR_NONE
  · rw [if_pos h1]
    simp [tuningRequests_append, tuningRequests]
  · rw [if_neg h1]
    by_cases h2 : (hasCD && !hasRSSI) = true
    · rw [if_pos h2]
      simp [tuningRequests_append, tuningRequests]
    · rw [if_neg h2]
      simp [tuningRequests_append, tuningRequests]

/-- Every hop of every round issues exactly one tuning request, for `startFrequency`,
whether or not earlier requests failed. -/
theorem sweepStateAt_tuningRequests {σ : Type} (E : ErrorCodes) (R : RFQRadio σ)
    (m : FrequencyScannerModule) (s0 : σ) (hops : Nat) :
    ∀ round hop, tuningRequests (sweepStateAt E R m s0 hops round hop).log
      = [m.startFrequency, m.endFrequency]
        ++ List.replicate (round * hops + hop) m.startFrequency := by
  have hhops : ∀ round,
      tuningRequests (sweepStateAt E R m s0 hops round 0).log
        = [m.startFrequency, m.endFrequency]
          ++ List.replicate (round * hops) m.startFrequency →
      ∀ hop, tuningRequests (sweepStateAt E R m s0 hops round hop).log
        = [m.startFrequency, m.endFrequency]
          ++ List.replicate (round * hops + hop) m.startFrequency := by
    intro round hr hop
    induction hop with
    | zero => exact hr
    | succ h ih =>
      rw [sweepStateAt_succ_hop, hopBody_tuningRequests, ih, ← Nat.add_assoc,
        List.replicate_succ' , List.append_assoc]
  have hrounds : ∀ round,
      tuningRequests (sweepStateAt E R m s0 hops round 0).log
        = [m.startFrequency, m.endFrequency]
          ++ List.replicate (round * hops) m.startFrequency := by
    intro round
    induction round with
    | zero => simp [sweepStateAt_zero_zero, beforeSweep, logBeforeSweep, tuningRequests]
    | succ r ih =>
      rw [sweepStateAt_succ_round, hhops r ih hops, Nat.succ_mul]
  intro round hop
  exact hhops round (hrounds round) hop

/-! ## Entries reported by `start` -/

theorem toUint8_lt (x : Int) : toUint8 x < 256 := by
  unfold toUint8; omega

/-- Sorting does not move entries into or out of the first 256 slots. -/
theorem bubbleSort_take_256 (a : List Item) (size : Nat) (h : size % 256 ≤ a.length) :
    ∀ it ∈ (bubbleSort a size).take 256, it ∈ a.take 256 := by
  obtain ⟨q, hq, hperm, _, _⟩ := bubbleSort_spec a size h
  have hs : size % 256 < 256 := Nat.mod_lt _ (by decide)
  have hqlen : q.length = size % 256 := by
    rw [hperm.length_eq, List.length_take]; omega
  have hsplit : a.take 256
      = a.take (size % 256) ++ (a.drop (size % 256)).take (256 - size % 256) := by
    rw [← List.take_add]
    congr 1
    omega
  intro it hit
  rw [hq, List.take_append_eq_append_take, List.take_of_length_le (by omega), hqlen,
    List.mem_append] at hit
  rw [hsplit, List.mem_append]
  rcases hit with hit | hit
  · exact Or.inl (hperm.mem_iff.mp hit)
  · exact Or.inr hit

/-- Every entry reported by the report phase has a nonzero score and is the entry that
the sweep left in the slot named by its `hop` field. -/
theorem report_reported_entries {σ : Type} (R : RFQRadio σ) (m : FrequencyScannerModule)
    (hasCD hasRSSI : Bool) (hops : Nat) (st : SweepState σ)
    (hlen : st.results.length = hops) (hinv : HopFieldInv st.results) :
    ∀ it ∈ (report R m hasCD hasRSSI hops st).reported,
      it.detections ≠ 0 ∧ st.results.get? it.hop = some it := by
  intro it hit
  rcases report_sent R m hasCD hasRSSI hops st with ⟨hrep, _⟩ | ⟨hrep, _⟩
  · rw [hrep] at hit; simp at hit
  · rw [hrep] at hit
    have hnz : it.detections ≠ 0 := by
      obtain ⟨p, hp, rfl⟩ := List.mem_map.mp hit
      exact (reportLoop_pairs m hasCD hasRSSI _ _ _ p hp).1
    refine ⟨hnz, ?_⟩
    have hsub := reportLoop_sublist m hasCD hasRSSI (bubbleSort st.results hops)
      (toUint8 ((hops : Int) - 1)) 0
    have h1 : it ∈ (bubbleSort st.results hops).take (toUint8 ((hops : Int) - 1) + 1) :=
      List.mem_reverse.mp (hsub.subset hit)
    have h2 : it ∈ (bubbleSort st.results hops).take 256 :=
      List.take_subset_take_left _ (toUint8_lt _) h1
    have h3 : it ∈ st.results.take 256 :=
      bubbleSort_take_256 st.results hops (by rw [hlen]; exact Nat.mod_le _ _) it h2
    obtain ⟨j, hj, hjeq⟩ := List.getElem_of_mem h3
    have hj2 : j < 256 := by rw [List.length_take] at hj; omega
    have hget : st.results.get? j = some it := by
      rw [List.get?_eq_getElem?, ← List.getElem?_take_of_lt hj2,
        List.getElem?_eq_getElem hj, hjeq]
    rw [hinv j it hget hnz, toUint8_of_lt j hj2]
    exact hget

/-- The messages sent pair off with the entries reported: each message carries the
frequency computed from the entry's `hop` field, the text of the detection mode, and the
value computed from the entry's score. -/
theorem report_zip {σ : Type} (R : RFQRadio σ) (m : FrequencyScannerModule)
    (hasCD hasRSSI : Bool) (hops : Nat) (st : SweepState σ) :
    (report R m hasCD hasRSSI hops st).sent.length
        = (report R m hasCD hasRSSI hops st).reported.length ∧
    ∀ p ∈ (report R m hasCD hasRSSI hops st).reported.zip
        (report R m hasCD hasRSSI hops st).sent,
      p.2.carrier = (hasCD && !hasRSSI) ∧
      p.2.value = reportedValue m hasCD hasRSSI p.1 ∧
      toUnsigned 32 (reportFrequency m p.1) = some p.2.frequency ∧
      p.2.frequency < (if hasCD && !hasRSSI then 10 ^ 7 else 2 ^ 31) := by
  rcases report_sent R m hasCD hasRSSI hops st with ⟨hrep, hsent⟩ | ⟨hrep, hsent⟩
  · rw [hrep, hsent]; simp
  · rw [hrep, hsent]
    refine ⟨by simp, ?_⟩
    intro p hp
    have hz : (List.map Prod.fst (reportLoop m hasCD hasRSSI (bubbleSort st.results hops)
          (toUint8 ((hops : Int) - 1)) 0).1).zip
        (List.map Prod.snd (reportLoop m hasCD hasRSSI (bubbleSort st.results hops)
          (toUint8 ((hops : Int) - 1)) 0).1)
        = (reportLoop m hasCD hasRSSI (bubbleSort st.results hops)
          (toUint8 ((hops : Int) - 1)) 0).1 := by
      have := List.zip_unzip (reportLoop m hasCD hasRSSI (bubbleSort st.results hops)
          (toUint8 ((hops : Int) - 1)) 0).1
      simpa [List.unzip_eq_map] using this
    rw [hz] at hp
    exact (reportLoop_pairs m hasCD hasRSSI _ _ _ p hp).2

theorem start_reported_entries {σ : Type} (E : ErrorCodes) (R : RFQRadio σ)
    (m : FrequencyScannerModule) (s0 : σ) (hops : Nat)
    (hacc : Accepted E R m s0) (hh : computeHops m = some hops) :
    ∀ it ∈ (start E R m s0).reported,
      it.detections ≠ 0 ∧ (afterSweep E R m s0 hops).results.get? it.hop = some it := by
  rw [start_of_accepted E R m s0 hops hacc hh]
  exact report_reported_entries R m _ _ hops _ (afterSweep_length E R m s0 hops)
    (afterSweep_hopFieldInv E R m s0 hops)

theorem start_zip {σ : Type} (E : ErrorCodes) (R : RFQRadio σ)
    (m : FrequencyScannerModule) (s0 : σ) (hops : Nat)
    (hacc : Accepted E R m s0) (hh : computeHops m = some hops) :
    (start E R m s0).sent.length = (start E R m s0).reported.length ∧
    ∀ p ∈ (start E R m s0).reported.zip (start E R m s0).sent,
      p.2.carrier = (hasCD E R m s0 && !hasRSSI E R m s0) ∧
      p.2.value = reportedValue m (hasCD E R m s0) (hasRSSI E R m s0) p.1 ∧
      toUnsigned 32 (reportFrequency m p.1) = some p.2.frequency ∧
      p.2.frequency < (if hasCD E R m s0 && !hasRSSI E R m s0 then 10 ^ 7 else 2 ^ 31) := by
  rw [start_of_accepted E R m s0 hops hacc hh]
  exact report_zip R m _ _ hops _

theorem scoreAt_of_get? (results : List Item) (j : Nat) (it : Item)
    (h : results.get? j = some it) : scoreAt results j = it.detections := by
  unfold scoreAt
  rw [List.getD_eq_getElem?_getD, ← List.get?_eq_getElem?, h]
  rfl

/-! ## Exits of `start` -/

/-- Values passed to `setPromiscuousMode` by the events of a log, in order. -/
def interceptCalls : List Event → List Bool
  | [] => []
  | Event.setPromiscuousMode b _ :: rest => b :: interceptCalls rest
  | _ :: rest => interceptCalls rest

/-- The four ways `start` rejects a request during validation: what it leaves behind in
each of them. -/
theorem start_of_rejected {σ : Type} (E : ErrorCodes) (R : RFQRadio σ)
    (m : FrequencyScannerModule) (s0 : σ) (hrej : ¬ Accepted E R m s0) :
    (start E R m s0).module = m ∧ (start E R m s0).sent = [] ∧
    (start E R m s0).reported = [] ∧ (start E R m s0).fault = none ∧
    (((start E R m s0).log = [Event.setFrequency m.startFrequency m.radioToUse] ∧
        (start E R m s0).reply = some ⟨msgStartInvalid, some 1⟩) ∨
     ((start E R m s0).log = [Event.setFrequency m.startFrequency m.radioToUse,
                              Event.setFrequency m.endFrequency m.radioToUse] ∧
        ((start E R m s0).reply = some ⟨msgEndInvalid, some 1⟩ ∨
         (start E R m s0).reply = some ⟨msgStepInvalid, some E.ERR_INVALID_FREQUENCY⟩)) ∨
     ((start E R m s0).log = [Event.setFrequency m.startFrequency m.radioToUse,
                              Event.setFrequency m.endFrequency m.radioToUse,
                              Event.getRSSI m.radioToUse,
                              Event.isCarrierDetected m.radioToUse] ∧
        (start E R m s0).radio = radioAfterProbe R m s0 ∧
        (start E R m s0).reply
          = some ⟨msgUnsupported, some E.ERR_COMMAND_NOT_IMPLEMENTED⟩)) := by
  unfold start
  simp only
  by_cases h1 : probeStart R m s0 ≠ E.ERR_NONE
  · rw [if_pos h1]
    exact ⟨rfl, rfl, rfl, rfl, Or.inl ⟨rfl, rfl⟩⟩
  · rw [if_neg h1]
    by_cases h2 : probeEnd R m s0 ≠ E.ERR_NONE ∨ m.endFrequency ≤ m.startFrequency
    · rw [if_pos h2]
      exact ⟨rfl, rfl, rfl, rfl, Or.inr (Or.inl ⟨rfl, Or.inl rfl⟩)⟩
    · rw [if_neg h2]
      by_cases h3 : m.frequencyStep < 0
      · rw [if_pos h3]
        exact ⟨rfl, rfl, rfl, rfl, Or.inr (Or.inl ⟨rfl, Or.inr rfl⟩)⟩
      · rw [if_neg h3]
        by_cases h4 : (!hasCD E R m s0 && !hasRSSI E R m s0) = true
        · rw [if_pos h4]
          exact ⟨rfl, rfl, rfl, rfl, Or.inr (Or.inr ⟨rfl, rfl, rfl⟩)⟩
        · exfalso
          apply hrej
          push_neg at h1 h2
          refine ⟨h1, h2.1, h2.2, h3, ?_⟩
          revert h4
          cases hasCD E R m s0 <;> cases hasRSSI E R m s0 <;> simp

theorem report_module {σ : Type} (R : RFQRadio σ) (m : FrequencyScannerModule)
    (hasCD hasRSSI : Bool) (hops : Nat) (st : SweepState σ) :
    (report R m hasCD hasRSSI hops st).module = { m with enabled := false } := by
  unfold report
  simp only
  split
  · rfl
  · split_ifs
    · rfl
    · split <;> rfl

theorem hopEvent_ne_setEnabled (m : FrequencyScannerModule) (hasCD hasRSSI b : Bool) :
    ¬ HopEvent m hasCD hasRSSI (Event.setEnabled b) := by
  unfold HopEvent
  simp

theorem foldl_count (p : Nat → Bool) (L : List Nat) :
    ∀ d : ℚ, L.foldl (fun d r => if p r then d + 1 else d) d
      = d + ((L.filter p).length : ℚ) := by
  induction L with
  | nil => intro d; simp
  | cons x L ih =>
    intro d
    rw [List.foldl_cons, ih, List.filter_cons]
    by_cases hx : p x = true
    · simp [hx]; ring
    · simp [hx]

theorem pow2_pos (e : ℤ) : 0 < pow2 e := by
  unfold pow2
  split_ifs <;> positivity

theorem roundHalfEven_nonneg (x : ℚ) (hx : 0 ≤ x) : 0 ≤ roundHalfEven x := by
  have hf : (0 : ℤ) ≤ x.floor := Int.floor_nonneg.mpr hx
  unfold roundHalfEven
  split_ifs <;> omega

theorem f32abs_nonneg (a : ℚ) (ha : 0 ≤ a) : 0 ≤ f32abs a := by
  unfold f32abs
  apply mul_nonneg
  · exact_mod_cast roundHalfEven_nonneg _ (div_nonneg ha (le_of_lt (pow2_pos _)))
  · exact le_of_lt (pow2_pos _)

/-- Rounding to binary32 keeps the sign. -/
theorem f32_nonneg (x : ℚ) (hx : 0 ≤ x) : 0 ≤ f32 x := by
  unfold f32
  split_ifs with h0 h1
  · exact le_refl _
  · exact absurd h1 (not_lt.mpr hx)
  · exact f32abs_nonneg x hx

theorem map_eq_map_of_zip {α β γ : Type} (f : α → γ) (g : β → γ) :
    ∀ (l1 : List α) (l2 : List β), l1.length = l2.length →
      (∀ p ∈ l1.zip l2, f p.1 = g p.2) → l1.map f = l2.map g := by
  intro l1
  induction l1 with
  | nil =>
    intro l2 hlen _
    cases l2 with
    | nil => rfl
    | cons y l2 => simp at hlen
  | cons x l1 ih =>
    intro l2 hlen h
    cases l2 with
    | nil => simp at hlen
    | cons y l2 =>
      simp only [List.map_cons, List.cons.injEq]
      refine ⟨h (x, y) (by simp), ih l2 (by simpa using hlen) ?_⟩
      intro p hp
      exact h p (by simp [hp])

/-- A hop whose tuning request fails leaves the result array alone and logs nothing but
the request. -/
theorem sweepStateAt_of_tuning_fails {σ : Type} (E : ErrorCodes) (R : RFQRadio σ)
    (m : FrequencyScannerModule) (s0 : σ) (hops round hop : Nat)
    (hfail : tuningSucceeds E R m (sweepStateAt E R m s0 hops round hop) = false) :
    (sweepStateAt E R m s0 hops round (hop + 1)).results
        = (sweepStateAt E R m s0 hops round hop).results ∧
      (sweepStateAt E R m s0 hops round (hop + 1)).log
        = (sweepStateAt E R m s0 hops round hop).log
          ++ [Event.setFrequency m.startFrequency m.radioToUse] := by
  rw [sweepStateAt_succ_hop]
  generalize sweepStateAt E R m s0 hops round hop = st at hfail
  unfold tuningSucceeds at hfail
  have h1 : (R.setFrequency m.startFrequency m.radioToUse st.radio).1 ≠ E.ERR_NONE := by
    simpa using hfail
  unfold hopBody
  simp only
  rw [if_pos h1]
  exact ⟨rfl, rfl⟩

theorem toUnsigned_eq_some (bits : Nat) (x : ℚ) (n : Nat)
    (h : toUnsigned bits x = some n) :
    (0 ≤ x → (n : ℤ) = ⌊x⌋) ∧ (x < 0 → n = 0) := by
  unfold toUnsigned at h
  split_ifs at h with h1 h2 h3
  · simp only [Option.some.injEq] at h
    exact ⟨fun h0 => absurd h2 (not_lt.mpr h0), fun _ => h.symm⟩
  · simp only [Option.some.injEq] at h
    have hx : 0 ≤ x := not_lt.mp h2
    refine ⟨fun _ => ?_, fun hneg => absurd hneg h2⟩
    rw [← h]
    exact Int.toNat_of_nonneg (Int.floor_nonneg.mpr hx)

theorem mem_modify {α : Type} (f : α → α) (n : Nat) (l : List α) (x : α)
    (hx : x ∈ l.modify f n) : x ∈ l ∨ ∃ y ∈ l, x = f y := by
  obtain ⟨j, hj⟩ := List.mem_iff_getElem?.mp hx
  rw [List.getElem?_modify] at hj
  cases hl : l[j]? with
  | none => rw [hl] at hj; simp at hj
  | some y =>
    rw [hl] at hj
    simp only [Option.map_eq_map, Option.map_some', Option.some.injEq] at hj
    have hy : y ∈ l := List.mem_iff_getElem?.mpr ⟨j, hl⟩
    by_cases hn : n = j
    · rw [if_pos hn] at hj
      exact Or.inr ⟨y, hy, hj.symm⟩
    · rw [if_neg hn] at hj
      exact Or.inl (hj ▸ hy)

/-- A hop body keeps all scores non-negative when what it adds is non-negative. -/
theorem hopBody_nonneg {σ : Type} (E : ErrorCodes) (R : RFQRadio σ)
    (m : FrequencyScannerModule) (hasCD hasRSSI : Bool) (st : SweepState σ) (hop : Nat)
    (hread : (hasCD && !hasRSSI) = false → 0 ≤ rssiRead R m st)
    (h : ∀ it ∈ st.results, 0 ≤ it.detections) :
    ∀ it ∈ (hopBody E R m hasCD hasRSSI st hop).results, 0 ≤ it.detections := by
  rw [hopBody_results]
  intro it hit
  split_ifs at hit with h1 h2 h3
  · rcases mem_modify _ _ _ _ hit with hm | ⟨y, hy, rfl⟩
    · exact h it hm
    · exact add_nonneg (h y hy) zero_le_one
  · exact h it hit
  · rcases mem_modify _ _ _ _ hit with hm | ⟨y, hy, rfl⟩
    · exact h it hm
    · exact f32_nonneg _ (add_nonneg (h y hy) (hread (by simpa using h2)))
  · exact h it hit

theorem reportLoop_fault (m : FrequencyScannerModule) (hasCD hasRSSI : Bool)
    (results : List Item) (hr : m.rounds ≠ 0) :
    ∀ (idx sentItems : Nat),
      (reportLoop m hasCD hasRSSI results idx sentItems).2 ≠ some Fault.divisionByZero := by
  intro idx
  induction idx with
  | zero => intro s; simp [reportLoop]
  | succ i ih =>
    intro s
    rw [reportLoop]
    split
    · simp
    · rename_i it hit
      by_cases hc : s < 10 ∧ it.detections ≠ 0
      · rw [if_pos hc]
        split
        · simp
        · rename_i frequency hf
          by_cases hmode : (hasCD && !hasRSSI) = true
          · rw [if_pos hmode]
            by_cases hbuf : 10 ^ 7 ≤ frequency
            · rw [if_pos hbuf]; simp
            · rw [if_neg hbuf]; exact ih _
          · rw [if_neg hmode]
            by_cases hfmt : 2 ^ 31 ≤ frequency
            · rw [if_pos hfmt]; simp
            · rw [if_neg hfmt, if_neg hr]; exact ih _
      · rw [if_neg hc]; simp

/-- The report phase never divides by a zero `rounds`: with `rounds = 0` the array it
reads holds zero scores only, and it returns before the report loop. -/
theorem report_fault_ne_division {σ : Type} (R : RFQRadio σ) (m : FrequencyScannerModule)
    (hasCD hasRSSI : Bool) (hops : Nat) (st : SweepState σ)
    (hlen : st.results.length = hops)
    (hz : m.rounds = 0 → ∀ it ∈ st.results, it.detections = 0) :
    (report R m hasCD hasRSSI hops st).fault ≠ some Fault.divisionByZero := by
  have hperm := bubbleSort_perm st.results hops (by rw [hlen]; exact Nat.mod_le _ _)
  unfold report
  simp only
  split
  · simp
  · rename_i top htop
    split_ifs with h0
    · simp
    · have hr : m.rounds ≠ 0 := by
        intro hr
        exact h0 (hz hr top (hperm.mem_iff.mp (List.get?_mem htop)))
      split
      · rename_i f hf
        simp only [Option.some.injEq, ne_eq]
        intro hfd
        rw [hfd] at hf
        exact reportLoop_fault m hasCD hasRSSI _ hr _ _ hf
      · simp

/-- The report phase on an array of zero scores with at least one entry: "Nothing
detected", right after the write of `enabled`. -/
theorem report_of_all_zero {σ : Type} (R : RFQRadio σ) (m : FrequencyScannerModule)
    (hasCD hasRSSI : Bool) (hops : Nat) (st : SweepState σ)
    (hlen : st.results.length = hops) (h1 : 1 ≤ hops)
    (hz : ∀ it ∈ st.results, it.detections = 0) :
    (report R m hasCD hasRSSI hops st).sent = [] ∧
    (report R m hasCD hasRSSI hops st).reply = some ⟨msgNothing, none⟩ ∧
    (report R m hasCD hasRSSI hops st).fault = none ∧
    (report R m hasCD hasRSSI hops st).log = st.log ++ [Event.setEnabled false] := by
  have hperm := bubbleSort_perm st.results hops (by rw [hlen]; exact Nat.mod_le _ _)
  have hidx : toUint8 ((hops : Int) - 1) < (bubbleSort st.results hops).length := by
    rw [hperm.length_eq, hlen]; exact toUint8_pred_lt hops h1
  have hget := List.get?_eq_get hidx
  have htop : ((bubbleSort st.results hops).get
      ⟨toUint8 ((hops : Int) - 1), hidx⟩).detections = 0 :=
    hz _ (hperm.mem_iff.mp (List.get_mem _ _ _))
  unfold report
  simp only [hget, htop, if_true]
  simp

theorem afterSweep_of_zero_rounds {σ : Type} (E : ErrorCodes) (R : RFQRadio σ)
    (m : FrequencyScannerModule) (s0 : σ) (hops : Nat) (hr : m.rounds = 0) :
    afterSweep E R m s0 hops = beforeSweep R m s0 hops := by
  rw [afterSweep_eq_sweepStateAt, hr, sweepStateAt_zero_zero]

/-- A radio with neither RSSI nor carrier detection: both reads answer the "not
implemented" code of `exampleCodes`. -/
def bareRadio : RFQRadio Nat :=
  { setFrequency := fun _ _ s => (0, s),
    setMode := fun _ _ s => (0, s),
    getRSSI := fun _ s => ((-2, 0), s + 1),
    isCarrierDetected := fun _ s => ((-2, false), s + 1),
    setPromiscuousMode := fun _ _ s => (0, s) }

/-! ## The claims, continued -/

/-- C11. When `start` is called with `enabled = false` and returns, `enabled` is `false`
again, on every exit path. A run rejected during validation never writes the flag. An
accepted run writes it twice: `true` right after the four validation probes, and `false`
right after the last hop of the sweep; the allocation and every radio call of the sweep
lie between the two writes, and nothing after the second write touches the flag. -/
theorem enabled_restored {σ : Type} (E : ErrorCodes) (R : RFQRadio σ)
    (m : FrequencyScannerModule) (s0 : σ) (hidle : m.enabled = false)
    (hret : (start E R m s0).fault = none) :
    (start E R m s0).module.enabled = false ∧
    (¬ Accepted E R m s0 → ∀ b, Event.setEnabled b ∉ (start E R m s0).log) ∧
    (Accepted E R m s0 → ∃ hops ext tail,
      (start E R m s0).log
        = [Event.setFrequency m.startFrequency m.radioToUse,
           Event.setFrequency m.endFrequency m.radioToUse,
           Event.getRSSI m.radioToUse, Event.isCarrierDetected m.radioToUse]
          ++ [Event.setEnabled true] ++ (Event.allocResults hops :: ext)
          ++ [Event.setEnabled false] ++ tail ∧
      (∀ e ∈ ext, HopEvent m (hasCD E R m s0) (hasRSSI E R m s0) e) ∧
      (∀ b, Event.setEnabled b ∉ ext) ∧ (∀ b, Event.setEnabled b ∉ tail)) := by
  have hacc_case : Accepted E R m s0 → (start E R m s0).module.enabled = false ∧
      ∃ hops ext tail,
      (start E R m s0).log
        = [Event.setFrequency m.startFrequency m.radioToUse,
           Event.setFrequency m.endFrequency m.radioToUse,
           Event.getRSSI m.radioToUse, Event.isCarrierDetected m.radioToUse]
          ++ [Event.setEnabled true] ++ (Event.allocResults hops :: ext)
          ++ [Event.setEnabled false] ++ tail ∧
      (∀ e ∈ ext, HopEvent m (hasCD E R m s0) (hasRSSI E R m s0) e) ∧
      (∀ b, Event.setEnabled b ∉ ext) ∧ (∀ b, Event.setEnabled b ∉ tail) := by
    intro hacc
    cases hh : computeHops m with
    | none =>
      exfalso
      obtain ⟨h1, h2, h3, h4, h5⟩ := hacc
      unfold start at hret
      simp only at hret
      rw [if_neg (by simp [h1]), if_neg (by simp [h2, not_le.mpr h3]), if_neg h4, if_neg
        (by rcases h5 with h5 | h5 <;> simp [h5]), hh] at hret
      simp at hret
    | some hops =>
      constructor
      · rw [start_of_accepted E R m s0 hops hacc hh, report_module]
      · obtain ⟨ext, tail, hlog, hext, htail⟩ := start_log_of_accepted E R m s0 hops hacc hh
        have hno : ∀ b, Event.setEnabled b ∉ ext :=
          fun b hb => hopEvent_ne_setEnabled m _ _ b (hext _ hb)
        rcases htail with rfl | rfl
        · exact ⟨hops, ext, [], by rw [hlog]; simp [logBeforeSweep], hext, hno, by simp⟩
        · exact ⟨hops, ext, [Event.deleteResults,
              Event.setPromiscuousMode false m.radioToUse],
            by rw [hlog]; simp [logBeforeSweep], hext, hno, by simp⟩
  refine ⟨?_, ?_, fun hacc => (hacc_case hacc).2⟩
  · by_cases hacc : Accepted E R m s0
    · exact (hacc_case hacc).1
    · rw [(start_of_rejected E R m s0 hacc).1]; exact hidle
  · intro hrej b hb
    obtain ⟨_, _, _, _, h | h | h⟩ := start_of_rejected E R m s0 hrej
    · rw [h.1] at hb; simp at hb
    · rw [h.1] at hb; simp at hb
    · rw [h.1] at hb; simp at hb

/-- C12 (the code departs from it). In a run that ends with "Nothing detected" `start`
makes no `setPromiscuousMode` call at all; in a run that reports a result its only
`setPromiscuousMode` call is the final `setPromiscuousMode(false, ...)`. Promiscuous mode
is never switched on. -/
theorem intercept_calls_of_runs :
    (start exampleCodes (carrierRadio (fun _ => false)) (scanConfig 2410 2 1) 0).reply
      = some ⟨msgNothing, none⟩ ∧
    interceptCalls
      (start exampleCodes (carrierRadio (fun _ => false)) (scanConfig 2410 2 1) 0).log = [] ∧
    (start exampleCodes (carrierRadio (fun k => k == 3)) (scanConfig 2410 2 1) 0).reply
      = some ⟨msgTop10, none⟩ ∧
    interceptCalls
      (start exampleCodes (carrierRadio (fun k => k == 3)) (scanConfig 2410 2 1) 0).log
      = [false] := by
  decide!

/-- C13. When `start` rejects the request during validation (range failure, step failure
or unsupported radio) its log holds tuning and capability probes only: no `setMode`
call, no `setPromiscuousMode` call, no write of `enabled`; the module is unchanged and
no per-result message is sent. When the rejection is the unsupported-radio one, the log
ends with the two capability probes and the radio is in the state they left. -/
theorem rejection_touches_nothing {σ : Type} (E : ErrorCodes) (R : RFQRadio σ)
    (m : FrequencyScannerModule) (s0 : σ) (hrej : ¬ Accepted E R m s0) :
    (∀ md w, Event.setMode md w ∉ (start E R m s0).log) ∧
    (∀ b w, Event.setPromiscuousMode b w ∉ (start E R m s0).log) ∧
    (∀ b, Event.setEnabled b ∉ (start E R m s0).log) ∧
    (∀ n, Event.allocResults n ∉ (start E R m s0).log) ∧
    (start E R m s0).module = m ∧
    (start E R m s0).sent = [] ∧
    (probeStart R m s0 = E.ERR_NONE → probeEnd R m s0 = E.ERR_NONE →
      m.startFrequency < m.endFrequency → ¬ m.frequencyStep < 0 →
        (start E R m s0).log
          = [Event.setFrequency m.startFrequency m.radioToUse,
             Event.setFrequency m.endFrequency m.radioToUse,
             Event.getRSSI m.radioToUse, Event.isCarrierDetected m.radioToUse] ∧
        (start E R m s0).radio = radioAfterProbe R m s0 ∧
        (start E R m s0).reply
          = some ⟨msgUnsupported, some E.ERR_COMMAND_NOT_IMPLEMENTED⟩) := by
  obtain ⟨hmod, hsent, _, _, hlog⟩ := start_of_rejected E R m s0 hrej
  refine ⟨?_, ?_, ?_, ?_, hmod, hsent, ?_⟩
  · intro md w hmem
    rcases hlog with h | h | h <;> (rw [h.1] at hmem; simp at hmem)
  · intro b w hmem
    rcases hlog with h | h | h <;> (rw [h.1] at hmem; simp at hmem)
  · intro b hmem
    rcases hlog with h | h | h <;> (rw [h.1] at hmem; simp at hmem)
  · intro n hmem
    rcases hlog with h | h | h <;> (rw [h.1] at hmem; simp at hmem)
  · intro h1 h2 h3 h4
    have h5 : ¬ (hasCD E R m s0 = true ∨ hasRSSI E R m s0 = true) :=
      fun h5 => hrej ⟨h1, h2, h3, h4, h5⟩
    unfold start
    simp only
    rw [if_neg (by simp [h1]), if_neg (by simp [h2, not_le.mpr h3]), if_neg h4, if_pos]
    · exact ⟨rfl, rfl, rfl⟩
    · revert h5
      cases hasCD E R m s0 <;> cases hasRSSI E R m s0 <;> simp

/-- C14. In carrier-detection mode, for an accepted scan: the score of every hop
`h < hops` after the sweep is the number of rounds in which the tuning request of that
hop succeeded and the carrier was detected; a hop whose tuning request fails leaves all
scores as they were and adds only the request to the log (no mode switch), and the sweep
goes on, issuing all `rounds * hops` requests; every reported entry is the accumulator
entry of the hop it names, and the value sent with it is its raw score. -/
theorem carrier_hit_count {σ : Type} (E : ErrorCodes) (R : RFQRadio σ)
    (m : FrequencyScannerModule) (s0 : σ) (hops : Nat)
    (hacc : Accepted E R m s0) (hh : computeHops m = some hops)
    (hcd : hasCD E R m s0 = true) (hrssi : hasRSSI E R m s0 = false) :
    (∀ h, h < hops → scoreAt (afterSweep E R m s0 hops).results h
      = (((List.range m.rounds).filter (fun r =>
            tuningSucceeds E R m (sweepStateAt E R m s0 hops r h) &&
            carrierSeen R m (sweepStateAt E R m s0 hops r h))).length : ℚ)) ∧
    (∀ r h, tuningSucceeds E R m (sweepStateAt E R m s0 hops r h) = false →
      (sweepStateAt E R m s0 hops r (h + 1)).results
          = (sweepStateAt E R m s0 hops r h).results ∧
      (sweepStateAt E R m s0 hops r (h + 1)).log
          = (sweepStateAt E R m s0 hops r h).log
            ++ [Event.setFrequency m.startFrequency m.radioToUse]) ∧
    (tuningRequests (afterSweep E R m s0 hops).log).length = 2 + m.rounds * hops ∧
    (∀ it ∈ (start E R m s0).reported,
      (afterSweep E R m s0 hops).results.get? it.hop = some it) ∧
    (start E R m s0).sent.map (fun r => r.value)
      = (start E R m s0).reported.map (fun it => it.detections) := by
  refine ⟨?_, ?_, ?_, ?_, ?_⟩
  · intro h hlt
    rw [afterSweep_eq_sweepStateAt, sweepStateAt_scoreAt E R m s0 hops h hlt]
    have hfun : (fun (d : ℚ) (r : Nat) =>
          hopUpdate E R m (hasCD E R m s0) (hasRSSI E R m s0)
            (sweepStateAt E R m s0 hops r h) d)
        = (fun d r => if (tuningSucceeds E R m (sweepStateAt E R m s0 hops r h) &&
            carrierSeen R m (sweepStateAt E R m s0 hops r h)) = true then d + 1 else d) := by
      funext d r
      unfold hopUpdate
      simp only [hcd, hrssi, Bool.not_false, Bool.and_self, if_true]
      cases tuningSucceeds E R m (sweepStateAt E R m s0 hops r h) <;>
        cases carrierSeen R m (sweepStateAt E R m s0 hops r h) <;> simp
    rw [hfun, foldl_count]
    simp
  · intro r h hfail
    exact sweepStateAt_of_tuning_fails E R m s0 hops r h hfail
  · rw [afterSweep_eq_sweepStateAt, sweepStateAt_tuningRequests]
    simp only [List.length_append, List.length_cons, List.length_nil, List.length_replicate]
    omega
  · intro it hit
    exact (start_reported_entries E R m s0 hops hacc hh it hit).2
  · obtain ⟨hlen, hzip⟩ := start_zip E R m s0 hops hacc hh
    symm
    apply map_eq_map_of_zip _ _ _ _ hlen.symm
    intro p hp
    rw [(hzip p hp).2.1]
    simp [reportedValue, hcd, hrssi]

/-- C15 is false as stated: with three rounds and a single reading of `1` at hop 3 (all
other readings `0`) the score of hop 3 is `1`, and the value sent is the binary32
quotient 11184811 / 33554432 (0.3333333432674408), not the sum divided by `rounds`. -/
theorem rssi_average_is_rounded :
    Accepted exampleCodes (rssiRadio (fun k => if k = 4 then 1 else 0)) (scanConfig 2410 2 3) 0 ∧
    scoreAt (afterSweep exampleCodes (rssiRadio (fun k => if k = 4 then 1 else 0))
      (scanConfig 2410 2 3) 0 5).results 3 = 1 ∧
    (start exampleCodes (rssiRadio (fun k => if k = 4 then 1 else 0))
      (scanConfig 2410 2 3) 0).sent = [⟨2406000, false, 11184811 / 33554432⟩] ∧
    (11184811 / 33554432 : ℚ) ≠ 1 / ((scanConfig 2410 2 3).rounds : ℚ) := by
  decide!

/-- C15, as amended. In RSSI mode, for an accepted scan: the score of every hop
`h < hops` after the sweep is the running binary32 sum of the RSSI readings taken at
that hop in the rounds whose tuning request succeeded (starting from `0`, in round
order, each addition rounded to the nearest binary32 value); every reported entry is
the accumulator entry of the hop it names, and the value sent with it is its score
divided by `rounds`, rounded to the nearest binary32 value. -/
theorem rssi_sum_and_average {σ : Type} (E : ErrorCodes) (R : RFQRadio σ)
    (m : FrequencyScannerModule) (s0 : σ) (hops : Nat)
    (hacc : Accepted E R m s0) (hh : computeHops m = some hops)
    (hrssi : hasRSSI E R m s0 = true) :
    (∀ h, h < hops → scoreAt (afterSweep E R m s0 hops).results h
      = (List.range m.rounds).foldl (fun d r =>
          if tuningSucceeds E R m (sweepStateAt E R m s0 hops r h) then
            f32 (d + rssiRead R m (sweepStateAt E R m s0 hops r h))
          else d) 0) ∧
    (∀ it ∈ (start E R m s0).reported,
      (afterSweep E R m s0 hops).results.get? it.hop = some it) ∧
    (start E R m s0).sent.map (fun r => r.value)
      = (start E R m s0).reported.map (fun it => f32 (it.detections / (m.rounds : ℚ))) := by
  refine ⟨?_, ?_, ?_⟩
  · intro h hlt
    rw [afterSweep_eq_sweepStateAt, sweepStateAt_scoreAt E R m s0 hops h hlt]
    congr 1
    funext d r
    unfold hopUpdate
    simp [hrssi]
  · intro it hit
    exact (start_reported_entries E R m s0 hops hacc hh it hit).2
  · obtain ⟨hlen, hzip⟩ := start_zip E R m s0 hops hacc hh
    symm
    apply map_eq_map_of_zip _ _ _ _ hlen.symm
    intro p hp
    rw [(hzip p hp).2.1]
    simp [reportedValue, hrssi]

/-- The hop count is a `uint16_t`: with `start = 2400`, `end = 2500` and `step = 1/1024`
the quotient is 102400, the conversion has no value, and nothing is allocated. -/
theorem hop_count_exceeds_uint16 :
    Accepted exampleCodes (carrierRadio (fun _ => false)) (scanConfig 2500 (1 / 1024) 1) 0 ∧
    f32 (f32 ((scanConfig 2500 (1 / 1024) 1).endFrequency
        - (scanConfig 2500 (1 / 1024) 1).startFrequency)
      / (scanConfig 2500 (1 / 1024) 1).frequencyStep) = 102400 ∧
    computeHops (scanConfig 2500 (1 / 1024) 1) = none ∧
    (start exampleCodes (carrierRadio (fun _ => false)) (scanConfig 2500 (1 / 1024) 1) 0).log
      = [Event.setFrequency 2400 0, Event.setFrequency 2500 0, Event.getRSSI 0,
         Event.isCarrierDetected 0, Event.setEnabled true] := by
  decide!

/-- C17 is false as stated: with `start = 2400`, `step = 2.09375` and a carrier at hop 1
the value converted is 2402093.75 (exact in binary32) and the message prints 2402093,
its integer part; rounding to the nearest integer would give 2402094. -/
theorem frequency_not_rounded :
    (start exampleCodes (carrierRadio (fun k => k == 2)) (scanConfig 2410 (67 / 32) 1) 0).reported
      = [⟨1, 1⟩] ∧
    (start exampleCodes (carrierRadio (fun k => k == 2)) (scanConfig 2410 (67 / 32) 1) 0).sent
      = [⟨2402093, true, 1⟩] ∧
    reportFrequency (scanConfig 2410 (67 / 32) 1) ⟨1, 1⟩ = 9608375 / 4 ∧
    round (((scanConfig 2410 (67 / 32) 1).startFrequency
      + (1 : ℚ) * (scanConfig 2410 (67 / 32) 1).frequencyStep) * 1000) = 2402094 := by
  decide!

/-- C17, as amended. In an accepted scan the messages sent pair off with the entries
reported; the frequency printed for an entry with stored hop index `h` is the binary32
value of `(startFrequency + h * frequencyStep) * 1000` (the product, the sum and the
product each rounded to the nearest binary32 value) truncated toward zero (its floor
when it is not negative, `0` when it is negative); the text of the message is that
number followed by " Hz carrier detections" or " Hz average RSSI", the number being
below `10^7` in the first case (the text fits `message[30]`) and below `2^31` in the
second; and `h` is the index of the accumulator entry whose score is reported. -/
theorem frequency_truncated {σ : Type} (E : ErrorCodes) (R : RFQRadio σ)
    (m : FrequencyScannerModule) (s0 : σ) (hops : Nat)
    (hacc : Accepted E R m s0) (hh : computeHops m = some hops) :
    (start E R m s0).sent.length = (start E R m s0).reported.length ∧
    ∀ p ∈ (start E R m s0).reported.zip (start E R m s0).sent,
      (0 ≤ f32 (f32 (m.startFrequency + f32 ((p.1.hop : ℚ) * m.frequencyStep)) * 1000) →
        (p.2.frequency : ℤ)
          = ⌊f32 (f32 (m.startFrequency + f32 ((p.1.hop : ℚ) * m.frequencyStep)) * 1000)⌋) ∧
      (f32 (f32 (m.startFrequency + f32 ((p.1.hop : ℚ) * m.frequencyStep)) * 1000) < 0 →
        p.2.frequency = 0) ∧
      p.2.message
        = (if hasCD E R m s0 && !hasRSSI E R m s0
           then toString p.2.frequency ++ " Hz carrier detections"
           else toString p.2.frequency ++ " Hz average RSSI") ∧
      p.2.frequency < (if hasCD E R m s0 && !hasRSSI E R m s0 then 10 ^ 7 else 2 ^ 31) ∧
      (afterSweep E R m s0 hops).results.get? p.1.hop = some p.1 := by
  obtain ⟨hlen, hzip⟩ := start_zip E R m s0 hops hacc hh
  refine ⟨hlen, ?_⟩
  intro p hp
  have hconv := toUnsigned_eq_some _ _ _ (hzip p hp).2.2.1
  have hmem : p.1 ∈ (start E R m s0).reported := (List.of_mem_zip hp).1
  refine ⟨hconv.1, hconv.2, ?_, (hzip p hp).2.2.2,
    (start_reported_entries E R m s0 hops hacc hh p.1 hmem).2⟩
  unfold FrequencyReply.message
  rw [(hzip p hp).1]

/-- C18 is false as stated: in RSSI mode with readings of `-90` every score is negative
after the sweep. -/
theorem negative_scores_with_rssi :
    Accepted exampleCodes (rssiRadio (fun _ => -90)) (scanConfig 2406 2 1) 0 ∧
    (afterSweep exampleCodes (rssiRadio (fun _ => -90)) (scanConfig 2406 2 1) 0 3).results
      = [⟨0, -90⟩, ⟨1, -90⟩, ⟨2, -90⟩] ∧
    ¬ ∀ it ∈ (afterSweep exampleCodes (rssiRadio (fun _ => -90))
        (scanConfig 2406 2 1) 0 3).results, 0 ≤ it.detections := by
  decide!

/-- C18, as amended. For every accepted scan in carrier-detection mode, and for every
accepted scan in RSSI mode on a radio whose RSSI readings are never negative, every
score is `0` when the sweep begins, no score is negative at any point of the sweep, in
the sorted array, or among the reported entries. -/
theorem scores_nonnegative {σ : Type} (E : ErrorCodes) (R : RFQRadio σ)
    (m : FrequencyScannerModule) (s0 : σ) (hops : Nat)
    (hacc : Accepted E R m s0) (hh : computeHops m = some hops)
    (hread : hasRSSI E R m s0 = true → ∀ w s, 0 ≤ (R.getRSSI w s).1.2) :
    (∀ it ∈ (sweepStateAt E R m s0 hops 0 0).results, it.detections = 0) ∧
    (∀ round hop, ∀ it ∈ (sweepStateAt E R m s0 hops round hop).results,
      0 ≤ it.detections) ∧
    (∀ it ∈ bubbleSort (afterSweep E R m s0 hops).results hops, 0 ≤ it.detections) ∧
    (∀ it ∈ (start E R m s0).reported, 0 ≤ it.detections) := by
  have hinit : ∀ it ∈ (sweepStateAt E R m s0 hops 0 0).results, it.detections = 0 := by
    intro it hit
    rw [sweepStateAt_zero_zero] at hit
    simp only [beforeSweep] at hit
    rw [(List.mem_replicate.mp hit).2]
  have hall : ∀ round hop, ∀ it ∈ (sweepStateAt E R m s0 hops round hop).results,
      0 ≤ it.detections := by
    intro round hop
    apply sweepStateAt_induction E R m s0 hops
      (fun st => ∀ it ∈ st.results, 0 ≤ it.detections)
    · intro it hit
      exact le_of_eq (hinit it hit).symm
    · intro st hp hst
      apply hopBody_nonneg E R m _ _ st hp _ hst
      intro hmode
      have hr : hasRSSI E R m s0 = true := by
        rcases hacc.2.2.2.2 with hc | hr
        · rw [hc] at hmode
          simpa using hmode
        · exact hr
      exact hread hr _ _
  have hafter : ∀ it ∈ (afterSweep E R m s0 hops).results, 0 ≤ it.detections := by
    rw [afterSweep_eq_sweepStateAt]; exact hall _ _
  refine ⟨hinit, hall, ?_, ?_⟩
  · intro it hit
    have hperm := bubbleSort_perm (afterSweep E R m s0 hops).results hops
      (by rw [afterSweep_length]; exact Nat.mod_le _ _)
    exact hafter it (hperm.mem_iff.mp hit)
  · intro it hit
    exact hafter it
      (List.get?_mem (start_reported_entries E R m s0 hops hacc hh it hit).2)

/-- C19. For an array `a` and a `size <= 255` not above the length of `a`,
`bubbleSort(a, size)` keeps the length of the array, leaves in the first `size` slots a
permutation of what they held, in non-decreasing order of `detections`, keeps for every
score the entries of that score in their original order, and leaves every slot from
`size` on unchanged. -/
theorem bubbleSort_stable_sort (a : List Item) (size : Nat) (h255 : size ≤ 255)
    (hlen : size ≤ a.length) :
    (bubbleSort a size).length = a.length ∧
    ((bubbleSort a size).take size).Perm (a.take size) ∧
    ((bubbleSort a size).take size).Pairwise (fun x y => x.detections ≤ y.detections) ∧
    (∀ key : ℚ, ((bubbleSort a size).take size).filter (fun it => decide (it.detections = key))
      = (a.take size).filter (fun it => decide (it.detections = key))) ∧
    (bubbleSort a size).drop size = a.drop size ∧
    ∀ i, size ≤ i → (bubbleSort a size)[i]? = a[i]? := by
  have hmod : size % 256 = size := Nat.mod_eq_of_lt (by omega)
  obtain ⟨q, hq, hperm, hsorted, hfilter⟩ := bubbleSort_spec a size (by rw [hmod]; exact hlen)
  rw [hmod] at hq hperm hfilter
  have hqlen : q.length = size := by
    rw [hperm.length_eq, List.length_take]; omega
  have htake : (bubbleSort a size).take size = q := by
    rw [hq, List.take_left' hqlen]
  have hdrop : (bubbleSort a size).drop size = a.drop size := by
    rw [hq, List.drop_left' hqlen]
  refine ⟨?_, ?_, ?_, ?_, hdrop, ?_⟩
  · rw [hq, List.length_append, hqlen, List.length_drop]; omega
  · rw [htake]; exact hperm
  · rw [htake]; exact hsorted
  · intro key; rw [htake]; exact hfilter key
  · intro i hi
    have h1 : (bubbleSort a size)[i]? = ((bubbleSort a size).drop size)[i - size]? := by
      rw [List.getElem?_drop]; congr 1; omega
    have h2 : a[i]? = (a.drop size)[i - size]? := by
      rw [List.getElem?_drop]; congr 1; omega
    rw [h1, h2, hdrop]

/-- C20. In an accepted scan with at least one hop and `rounds = 0` the sweep adds
nothing to the log (no tuning, no mode switch, no sample), every entry of the result
array stays zero, and `start` replies "Nothing detected" without sending a message. For
every module and radio state, no run of `start` reaches the division `detections /
rounds` with `rounds = 0`. -/
theorem zero_rounds_nothing_detected {σ : Type} (E : ErrorCodes) (R : RFQRadio σ)
    (m : FrequencyScannerModule) (s0 : σ) (hops : Nat)
    (hacc : Accepted E R m s0) (hh : computeHops m = some hops) (h1 : 1 ≤ hops)
    (hr : m.rounds = 0) :
    (afterSweep E R m s0 hops).log = logBeforeSweep m hops ∧
    (afterSweep E R m s0 hops).results = List.replicate hops ⟨0, 0⟩ ∧
    (start E R m s0).log = logBeforeSweep m hops ++ [Event.setEnabled false] ∧
    (start E R m s0).sent = [] ∧
    (start E R m s0).reply = some ⟨msgNothing, none⟩ ∧
    (start E R m s0).fault = none ∧
    ∀ (m2 : FrequencyScannerModule) (s : σ),
      (start E R m2 s).fault ≠ some Fault.divisionByZero := by
  have hafter := afterSweep_of_zero_rounds E R m s0 hops hr
  have hzero : ∀ it ∈ (afterSweep E R m s0 hops).results, it.detections = 0 := by
    intro it hit
    rw [hafter] at hit
    simp only [beforeSweep] at hit
    rw [(List.mem_replicate.mp hit).2]
  obtain ⟨hsent, hreply, hfault, hlog⟩ := report_of_all_zero R m (hasCD E R m s0)
    (hasRSSI E R m s0) hops (afterSweep E R m s0 hops) (afterSweep_length E R m s0 hops)
    h1 hzero
  rw [← start_of_accepted E R m s0 hops hacc hh] at hsent hreply hfault hlog
  refine ⟨by rw [hafter]; rfl, by rw [hafter]; rfl, ?_, hsent, hreply, hfault, ?_⟩
  · rw [hlog, hafter]; rfl
  · intro m2 s
    by_cases hacc2 : Accepted E R m2 s
    · cases hh2 : computeHops m2 with
      | none =>
        obtain ⟨h1, h2, h3, h4, h5⟩ := hacc2
        unfold start
        simp only
        rw [if_neg (by simp [h1]), if_neg (by simp [h2, not_le.mpr h3]), if_neg h4, if_neg
          (by rcases h5 with h5 | h5 <;> simp [h5]), hh2]
        simp
      | some hops2 =>
        rw [start_of_accepted E R m2 s hops2 hacc2 hh2]
        apply report_fault_ne_division R m2 _ _ hops2 _ (afterSweep_length E R m2 s hops2)
        intro hr2 it hit
        rw [afterSweep_of_zero_rounds E R m2 s hops2 hr2] at hit
        simp only [beforeSweep] at hit
        rw [(List.mem_replicate.mp hit).2]
    · rw [(start_of_rejected E R m2 s hacc2).2.2.2.1]
      simp

/-- C11 at a concrete run: a carrier at hop 2 of five, one round; the run returns with
`enabled = false`. -/
theorem enabled_restored_witness :
    (scanConfig 2410 2 1).enabled = false ∧
    (start exampleCodes (carrierRadio (fun k => k == 3)) (scanConfig 2410 2 1) 0).fault = none ∧
    (start exampleCodes (carrierRadio (fun k => k == 3)) (scanConfig 2410 2 1) 0).reply
      = some ⟨msgTop10, none⟩ ∧
    (start exampleCodes (carrierRadio (fun k => k == 3)) (scanConfig 2410 2 1) 0).module.enabled
      = false :=
  ⟨by decide!, by decide!, by decide!,
    (enabled_restored exampleCodes (carrierRadio (fun k => k == 3)) (scanConfig 2410 2 1) 0
      (by decide!) (by decide!)).1⟩

/-- C13 at a concrete run: a radio with neither RSSI nor carrier detection. -/
theorem rejection_touches_nothing_witness :
    ¬ Accepted exampleCodes bareRadio (scanConfig 2410 2 1) 0 ∧
    (start exampleCodes bareRadio (scanConfig 2410 2 1) 0).reply
      = some ⟨msgUnsupported, some (-2)⟩ ∧
    (start exampleCodes bareRadio (scanConfig 2410 2 1) 0).radio = 2 ∧
    (∀ md w, Event.setMode md w ∉ (start exampleCodes bareRadio (scanConfig 2410 2 1) 0).log) ∧
    (start exampleCodes bareRadio (scanConfig 2410 2 1) 0).module = scanConfig 2410 2 1 :=
  ⟨by decide!, by decide!, by decide!,
    (rejection_touches_nothing exampleCodes bareRadio (scanConfig 2410 2 1) 0 (by decide!)).1,
    (rejection_touches_nothing exampleCodes bareRadio (scanConfig 2410 2 1) 0
      (by decide!)).2.2.2.2.1⟩

/-- C14 at the run of the example: `start = 2400`, `end = 2410`, `step = 2`, one round,
a carrier at hop 2 only; one message, 2404000 with value 1. -/
theorem carrier_hit_count_witness :
    Accepted exampleCodes (carrierRadio (fun k => k == 3)) (scanConfig 2410 2 1) 0 ∧
    computeHops (scanConfig 2410 2 1) = some 5 ∧
    hasCD exampleCodes (carrierRadio (fun k => k == 3)) (scanConfig 2410 2 1) 0 = true ∧
    hasRSSI exampleCodes (carrierRadio (fun k => k == 3)) (scanConfig 2410 2 1) 0 = false ∧
    (start exampleCodes (carrierRadio (fun k => k == 3)) (scanConfig 2410 2 1) 0).sent
      = [⟨2404000, true, 1⟩] ∧
    (afterSweep exampleCodes (carrierRadio (fun k => k == 3)) (scanConfig 2410 2 1) 0 5).results
      = [⟨0, 0⟩, ⟨0, 0⟩, ⟨2, 1⟩, ⟨0, 0⟩, ⟨0, 0⟩] ∧
    (start exampleCodes (carrierRadio (fun k => k == 3)) (scanConfig 2410 2 1) 0).sent.map
        (fun r => r.value)
      = (start exampleCodes (carrierRadio (fun k => k == 3))
          (scanConfig 2410 2 1) 0).reported.map (fun it => it.detections) :=
  ⟨by decide!, by decide!, by decide!, by decide!, by decide!, by decide!,
    (carrier_hit_count exampleCodes (carrierRadio (fun k => k == 3)) (scanConfig 2410 2 1) 0 5
      (by decide!) (by decide!) (by decide!) (by decide!)).2.2.2.2⟩

/-- Amended C15 at the run of the example: two rounds, readings 10 and 20 at hop 3 and 0
elsewhere; the score of hop 3 is 30 and the value sent is 15. -/
theorem rssi_sum_and_average_witness :
    Accepted exampleCodes
      (rssiRadio (fun k => if k = 4 then 10 else if k = 9 then 20 else 0))
      (scanConfig 2410 2 2) 0 ∧
    computeHops (scanConfig 2410 2 2) = some 5 ∧
    hasRSSI exampleCodes
      (rssiRadio (fun k => if k = 4 then 10 else if k = 9 then 20 else 0))
      (scanConfig 2410 2 2) 0 = true ∧
    scoreAt (afterSweep exampleCodes
      (rssiRadio (fun k => if k = 4 then 10 else if k = 9 then 20 else 0))
      (scanConfig 2410 2 2) 0 5).results 3 = 30 ∧
    (start exampleCodes
      (rssiRadio (fun k => if k = 4 then 10 else if k = 9 then 20 else 0))
      (scanConfig 2410 2 2) 0).sent = [⟨2406000, false, 15⟩] ∧
    (start exampleCodes
      (rssiRadio (fun k => if k = 4 then 10 else if k = 9 then 20 else 0))
      (scanConfig 2410 2 2) 0).sent.map (fun r => r.value)
      = (start exampleCodes
          (rssiRadio (fun k => if k = 4 then 10 else if k = 9 then 20 else 0))
          (scanConfig 2410 2 2) 0).reported.map
            (fun it => f32 (it.detections / ((scanConfig 2410 2 2).rounds : ℚ))) :=
  ⟨by decide!, by decide!, by decide!, by decide!, by decide!,
    (rssi_sum_and_average exampleCodes
      (rssiRadio (fun k => if k = 4 then 10 else if k = 9 then 20 else 0))
      (scanConfig 2410 2 2) 0 5 (by decide!) (by decide!) (by decide!)).2.2⟩

/-- Amended C17 at a concrete run: the binary32 step `0.7f` (11744051 / 16777216), a
carrier at hop 1; the entry `(hop 1, score 1)` is sent with frequency 2400700: the
binary32 sum is 2400.699951171875 and the binary32 product 2400700. -/
theorem frequency_truncated_witness :
    Accepted exampleCodes (carrierRadio (fun k => k == 2))
      (scanConfig 2410 (11744051 / 16777216) 1) 0 ∧
    computeHops (scanConfig 2410 (11744051 / 16777216) 1) = some 14 ∧
    (start exampleCodes (carrierRadio (fun k => k == 2))
      (scanConfig 2410 (11744051 / 16777216) 1) 0).sent = [⟨2400700, true, 1⟩] ∧
    f32 (f32 ((scanConfig 2410 (11744051 / 16777216) 1).startFrequency
      + f32 (((1 : ℕ) : ℚ) * (scanConfig 2410 (11744051 / 16777216) 1).frequencyStep))
      * 1000) = 2400700 ∧
    ((2400700 : ℕ) : ℤ)
      = ⌊f32 (f32 ((scanConfig 2410 (11744051 / 16777216) 1).startFrequency
          + f32 (((1 : ℕ) : ℚ) * (scanConfig 2410 (11744051 / 16777216) 1).frequencyStep))
          * 1000)⌋ ∧
    (afterSweep exampleCodes (carrierRadio (fun k => k == 2))
      (scanConfig 2410 (11744051 / 16777216) 1) 0 14).results.get? 1 = some ⟨1, 1⟩ :=
  ⟨by decide!, by decide!, by decide!, by decide!,
    ((frequency_truncated exampleCodes (carrierRadio (fun k => k == 2))
      (scanConfig 2410 (11744051 / 16777216) 1) 0 14 (by decide!) (by decide!)).2
        (⟨1, 1⟩, ⟨2400700, true, 1⟩) (by decide!)).1 (by decide!),
    ((frequency_truncated exampleCodes (carrierRadio (fun k => k == 2))
      (scanConfig 2410 (11744051 / 16777216) 1) 0 14 (by decide!) (by decide!)).2
        (⟨1, 1⟩, ⟨2400700, true, 1⟩) (by decide!)).2.2.2.2⟩

/-- Amended C18 at a concrete run: RSSI readings 1, 2, 3 at three hops. -/
theorem scores_nonnegative_witness :
    Accepted exampleCodes (rssiRadio (fun k => k)) (scanConfig 2406 2 1) 0 ∧
    computeHops (scanConfig 2406 2 1) = some 3 ∧
    (afterSweep exampleCodes (rssiRadio (fun k => k)) (scanConfig 2406 2 1) 0 3).results
      = [⟨0, 1⟩, ⟨1, 2⟩, ⟨2, 3⟩] ∧
    (∀ it ∈ (start exampleCodes (rssiRadio (fun k => k)) (scanConfig 2406 2 1) 0).reported,
      0 ≤ it.detections) :=
  ⟨by decide!, by decide!, by decide!,
    (scores_nonnegative exampleCodes (rssiRadio (fun k => k)) (scanConfig 2406 2 1) 0 3
      (by decide!) (by decide!) (fun _ _ s => Nat.cast_nonneg s)).2.2.2⟩

/-- C19 at a concrete array: six entries with two ties, the first five sorted. -/
theorem bubbleSort_stable_sort_witness :
    (5 : Nat) ≤ 255 ∧
    5 ≤ ([⟨0, 3⟩, ⟨1, 1⟩, ⟨2, 3⟩, ⟨3, 1⟩, ⟨4, 9⟩, ⟨5, 0⟩] : List Item).length ∧
    bubbleSort [⟨0, 3⟩, ⟨1, 1⟩, ⟨2, 3⟩, ⟨3, 1⟩, ⟨4, 9⟩, ⟨5, 0⟩] 5
      = [⟨1, 1⟩, ⟨3, 1⟩, ⟨0, 3⟩, ⟨2, 3⟩, ⟨4, 9⟩, ⟨5, 0⟩] ∧
    ((bubbleSort [⟨0, 3⟩, ⟨1, 1⟩, ⟨2, 3⟩, ⟨3, 1⟩, ⟨4, 9⟩, ⟨5, 0⟩] 5).take 5).Pairwise
      (fun x y => x.detections ≤ y.detections) :=
  ⟨by decide, by decide, by decide!,
    (bubbleSort_stable_sort [⟨0, 3⟩, ⟨1, 1⟩, ⟨2, 3⟩, ⟨3, 1⟩, ⟨4, 9⟩, ⟨5, 0⟩] 5
      (by decide) (by decide)).2.2.1⟩

/-- C20 at a concrete run: an RSSI radio, five hops, `rounds = 0`. -/
theorem zero_rounds_nothing_detected_witness :
    Accepted exampleCodes (rssiRadio (fun k => k)) (scanConfig 2410 2 0) 0 ∧
    computeHops (scanConfig 2410 2 0) = some 5 ∧
    (scanConfig 2410 2 0).rounds = 0 ∧
    (start exampleCodes (rssiRadio (fun k => k)) (scanConfig 2410 2 0) 0).reply
      = some ⟨msgNothing, none⟩ ∧
    (start exampleCodes (rssiRadio (fun k => k)) (scanConfig 2410 2 0) 0).sent = [] :=
  ⟨by decide!, by decide!, by decide!,
    (zero_rounds_nothing_detected exampleCodes (rssiRadio (fun k => k)) (scanConfig 2410 2 0) 0 5
      (by decide!) (by decide!) (by decide) (by decide!)).2.2.2.2.1,
    (zero_rounds_nothing_detected exampleCodes (rssiRadio (fun k => k)) (scanConfig 2410 2 0) 0 5
      (by decide!) (by decide!) (by decide) (by decide!)).2.2.2.1⟩

/-! ## Samples taken by the sweep -/

/-- Number of `getRSSI` calls in a log. -/
def rssiReads : List Event → Nat
  | [] => 0
  | Event.getRSSI _ :: rest => rssiReads rest + 1
  | _ :: rest => rssiReads rest

/-- Number of `isCarrierDetected` calls in a log. -/
def carrierReads : List Event → Nat
  | [] => 0
  | Event.isCarrierDetected _ :: rest => carrierReads rest + 1
  | _ :: rest => carrierReads rest

/-- Number of hop bodies of the sweep whose tuning request succeeds. -/
def successfulHops {σ : Type} (E : ErrorCodes) (R : RFQRadio σ)
    (m : FrequencyScannerModule) (s0 : σ) (hops : Nat) : Nat :=
  ((List.range m.rounds).map (fun r =>
    ((List.range hops).filter (fun h =>
      tuningSucceeds E R m (sweepStateAt E R m s0 hops r h))).length)).sum

theorem rssiReads_append (l1 l2 : List Event) :
    rssiReads (l1 ++ l2) = rssiReads l1 + rssiReads l2 := by
  induction l1 with
  | nil => simp [rssiReads]
  | cons e l ih =>
    cases e <;> simp [rssiReads, ih] <;> omega

theorem carrierReads_append (l1 l2 : List Event) :
    carrierReads (l1 ++ l2) = carrierReads l1 + carrierReads l2 := by
  induction l1 with
  | nil => simp [carrierReads]
  | cons e l ih =>
    cases e <;> simp [carrierReads, ih] <;> omega

/-- The events one hop body adds to the log. -/
theorem hopBody_log_eq {σ : Type} (E : ErrorCodes) (R : RFQRadio σ)
    (m : FrequencyScannerModule) (hasCD hasRSSI : Bool) (st : SweepState σ) (hop : Nat) :
    (hopBody E R m hasCD hasRSSI st hop).log
      = st.log ++
        (if tuningSucceeds E R m st then
          [Event.setFrequency m.startFrequency m.radioToUse,
           Event.setMode Mode.rfquack_Mode_RX m.radioToUse,
           (if hasCD && !hasRSSI then Event.isCarrierDetected m.radioToUse
            else Event.getRSSI m.radioToUse),
           Event.setMode Mode.rfquack_Mode_IDLE m.radioToUse]
         else [Event.setFrequency m.startFrequency m.radioToUse]) := by
  unfold hopBody tuningSucceeds
  by_cases h1 : (R.setFrequency m.startFrequency m.radioToUse st.radio).1 = E.ERR_NONE
  · by_cases h2 : (hasCD && !hasRSSI) = true
    · simp [h1, h2]
    · simp [h1, h2]
  · simp [h1]

theorem sum_map_ite_nat (p : Nat → Bool) (L : List Nat) :
    (L.map (fun h => if p h then 1 else 0)).sum = (L.filter p).length := by
  induction L with
  | nil => rfl
  | cons x L ih =>
    rw [List.map_cons, List.sum_cons, ih, List.filter_cons]
    by_cases hx : p x = true
    · simp [hx]; omega
    · simp [hx]

/-- A count over the log that every hop body raises by `g` of the state it starts in
is, after `round` full rounds, the count before the sweep plus the sum of `g` over all
hop bodies run. -/
theorem sweepStateAt_measure {σ : Type} (E : ErrorCodes) (R : RFQRadio σ)
    (m : FrequencyScannerModule) (s0 : σ) (hops : Nat)
    (μ : List Event → Nat) (g : SweepState σ → Nat)
    (hstep : ∀ st hop,
      μ (hopBody E R m (hasCD E R m s0) (hasRSSI E R m s0) st hop).log = μ st.log + g st) :
    ∀ round, μ (sweepStateAt E R m s0 hops round 0).log
      = μ (beforeSweep R m s0 hops).log
        + ((List.range round).map (fun r =>
            ((List.range hops).map (fun h =>
              g (sweepStateAt E R m s0 hops r h))).sum)).sum := by
  have hhops : ∀ round hop, μ (sweepStateAt E R m s0 hops round hop).log
      = μ (sweepStateAt E R m s0 hops round 0).log
        + ((List.range hop).map (fun h => g (sweepStateAt E R m s0 hops round h))).sum := by
    intro round hop
    induction hop with
    | zero => simp
    | succ h ih =>
      rw [sweepStateAt_succ_hop, hstep, ih, List.range_succ, List.map_append,
        List.sum_append]
      simp
      omega
  intro round
  induction round with
  | zero => simp [sweepStateAt_zero_zero]
  | succ r ih =>
    rw [sweepStateAt_succ_round, hhops r hops, ih, List.range_succ, List.map_append,
      List.sum_append]
    simp
    omega

/-- The reads of the sweep: in carrier-detection mode every hop body whose tuning
request succeeds reads the carrier once and never the RSSI, in RSSI mode it reads the
RSSI once and never the carrier; before the sweep each was read once, by the probes. -/
theorem afterSweep_reads {σ : Type} (E : ErrorCodes) (R : RFQRadio σ)
    (m : FrequencyScannerModule) (s0 : σ) (hops : Nat) :
    rssiReads (afterSweep E R m s0 hops).log
      = 1 + (if hasCD E R m s0 && !hasRSSI E R m s0 then 0
             else successfulHops E R m s0 hops) ∧
    carrierReads (afterSweep E R m s0 hops).log
      = 1 + (if hasCD E R m s0 && !hasRSSI E R m s0 then successfulHops E R m s0 hops
             else 0) := by
  have hr : ∀ (st : SweepState σ) (hop : Nat),
      rssiReads (hopBody E R m (hasCD E R m s0) (hasRSSI E R m s0) st hop).log
        = rssiReads st.log
          + (if hasCD E R m s0 && !hasRSSI E R m s0 then 0
             else if tuningSucceeds E R m st then 1 else 0) := by
    intro st hop
    rw [hopBody_log_eq, rssiReads_append]
    by_cases ht : tuningSucceeds E R m st = true <;>
      by_cases hmode : (hasCD E R m s0 && !hasRSSI E R m s0) = true <;>
      simp [ht, hmode, rssiReads]
  have hc : ∀ (st : SweepState σ) (hop : Nat),
      carrierReads (hopBody E R m (hasCD E R m s0) (hasRSSI E R m s0) st hop).log
        = carrierReads st.log
          + (if hasCD E R m s0 && !hasRSSI E R m s0 then
               (if tuningSucceeds E R m st then 1 else 0)
             else 0) := by
    intro st hop
    rw [hopBody_log_eq, carrierReads_append]
    by_cases ht : tuningSucceeds E R m st = true <;>
      by_cases hmode : (hasCD E R m s0 && !hasRSSI E R m s0) = true <;>
      simp [ht, hmode, carrierReads]
  rw [afterSweep_eq_sweepStateAt, sweepStateAt_measure E R m s0 hops rssiReads _ hr,
    sweepStateAt_measure E R m s0 hops carrierReads _ hc]
  have hsum : ∀ r, ((List.range hops).map (fun h =>
      if tuningSucceeds E R m (sweepStateAt E R m s0 hops r h) then 1 else 0)).sum
      = ((List.range hops).filter (fun h =>
          tuningSucceeds E R m (sweepStateAt E R m s0 hops r h))).length :=
    fun r => sum_map_ite_nat _ _
  by_cases hmode : (hasCD E R m s0 && !hasRSSI E R m s0) = true
  · simp only [hmode, if_true, hsum]
    simp [beforeSweep, logBeforeSweep, rssiReads, carrierReads, successfulHops]
  · simp only [hmode, if_false, hsum]
    simp [beforeSweep, logBeforeSweep, rssiReads, carrierReads, successfulHops, hsum]

/-- The first pass of the report loop over a nonzero entry, when the loop ends without
a fault: the entry is reported, with the text of the detection mode and the value that
mode computes. -/
theorem reportLoop_head (m : FrequencyScannerModule) (hasCD hasRSSI : Bool)
    (results : List Item) (i s : Nat) (it : Item)
    (hget : results.get? (i + 1) = some it) (hs : s < 10) (hnz : it.detections ≠ 0)
    (hok : (reportLoop m hasCD hasRSSI results (i + 1) s).2 = none) :
    ∃ f rest, (reportLoop m hasCD hasRSSI results (i + 1) s).1
      = (it, { frequency := f, carrier := hasCD && !hasRSSI,
               value := reportedValue m hasCD hasRSSI it }) :: rest := by
  revert hok
  rw [reportLoop, hget]
  simp only
  rw [if_pos ⟨hs, hnz⟩]
  cases hf : toUnsigned 32 (reportFrequency m it) with
  | none => simp
  | some f =>
    simp only
    by_cases hmode : (hasCD && !hasRSSI) = true
    · rw [if_pos hmode]
      by_cases hbuf : 10 ^ 7 ≤ f
      · rw [if_pos hbuf]; simp
      · rw [if_neg hbuf]
        intro _
        exact ⟨f, (reportLoop m hasCD hasRSSI results i (s + 1)).1,
          by simp [reportedValue, hmode]⟩
    · rw [if_neg hmode]
      by_cases hfmt : 2 ^ 31 ≤ f
      · rw [if_pos hfmt]; simp
      · rw [if_neg hfmt]
        by_cases hr : m.rounds = 0
        · rw [if_pos hr]; simp
        · rw [if_neg hr]
          intro _
          exact ⟨f, (reportLoop m hasCD hasRSSI results i (s + 1)).1,
            by simp [reportedValue, hmode]⟩

/-- The report phase, when the entry read at `itemIndex > 0` is nonzero and the run ends
without a fault: the first message sent reports that entry. -/
theorem report_first {σ : Type} (R : RFQRadio σ) (m : FrequencyScannerModule)
    (hasCD hasRSSI : Bool) (hops : Nat) (st : SweepState σ) (top : Item)
    (hget : (bubbleSort st.results hops).get? (toUint8 ((hops : Int) - 1)) = some top)
    (hnz : top.detections ≠ 0) (hidx : 0 < toUint8 ((hops : Int) - 1))
    (hok : (report R m hasCD hasRSSI hops st).fault = none) :
    ∃ f rest, (report R m hasCD hasRSSI hops st).sent
        = { frequency := f, carrier := hasCD && !hasRSSI,
            value := reportedValue m hasCD hasRSSI top } :: rest ∧
      (report R m hasCD hasRSSI hops st).reported.head? = some top := by
  obtain ⟨i, hi⟩ : ∃ i, toUint8 ((hops : Int) - 1) = i + 1 :=
    ⟨toUint8 ((hops : Int) - 1) - 1, by omega⟩
  rw [hi] at hget
  have hloop : (reportLoop m hasCD hasRSSI (bubbleSort st.results hops) (i + 1) 0).2 = none := by
    revert hok
    unfold report
    simp only [hi, hget, if_neg hnz]
    cases hf : (reportLoop m hasCD hasRSSI (bubbleSort st.results hops) (i + 1) 0).2 with
    | none => intro _; rfl
    | some f => simp
  obtain ⟨f, rest, hhead⟩ := reportLoop_head m hasCD hasRSSI _ i 0 top hget (by decide) hnz hloop
  refine ⟨f, rest.map Prod.snd, ?_, ?_⟩
  · unfold report
    simp only [hi, hget, if_neg hnz, hloop, hhead, List.map_cons]
  · unfold report
    simp only [hi, hget, if_neg hnz, hloop, hhead, List.map_cons, List.head?_cons]

/-- C2. For a run that passes range and step validation: when the `getRSSI` probe does
not answer "not implemented", no hop of the sweep samples the carrier and every message
sent is an "average RSSI" message, whatever the carrier-detect probe answered; when RSSI
is unavailable and carrier detection is available, no hop of the sweep reads the RSSI
and every message sent is a "carrier detections" message; when neither is available
`start` replies "Radio needs to support RSSI or Carrier Detection" with the "not
implemented" code after the four probes, and does nothing else. When one of the two is
available and the hop count is defined: every hop body whose tuning request succeeds
logs the request, the switch to RX, one read of the chosen kind (`getRSSI` with RSSI,
`isCarrierDetected` without) and the switch to idle, and updates the score of its hop
with what it read (the rounded sum with RSSI, the count without); the log of `start`
holds one read of the chosen kind per such hop body besides the probe, and the probe
only of the other kind; and when the entry read at `itemIndex > 0` has a nonzero score
and the run ends without a fault, the first message sent reports that entry with the
text of the chosen kind and the value that kind computes (score / rounds rounded to
binary32 with RSSI, the raw score without). -/
theorem detection_mode_selection {σ : Type} (E : ErrorCodes) (R : RFQRadio σ)
    (m : FrequencyScannerModule) (s0 : σ)
    (hrange : probeStart R m s0 = E.ERR_NONE ∧ probeEnd R m s0 = E.ERR_NONE ∧
      m.startFrequency < m.endFrequency)
    (hstep : ¬ m.frequencyStep < 0) :
    (hasRSSI E R m s0 = true →
      (∀ w, Event.isCarrierDetected w ∉ (start E R m s0).log.drop 4) ∧
      (∀ r ∈ (start E R m s0).sent, r.carrier = false)) ∧
    (hasRSSI E R m s0 = false → hasCD E R m s0 = true →
      (∀ w, Event.getRSSI w ∉ (start E R m s0).log.drop 4) ∧
      (∀ r ∈ (start E R m s0).sent, r.carrier = true)) ∧
    (hasRSSI E R m s0 = false → hasCD E R m s0 = false →
      (start E R m s0).reply
          = some ⟨msgUnsupported, some E.ERR_COMMAND_NOT_IMPLEMENTED⟩ ∧
      (start E R m s0).sent = [] ∧
      (start E R m s0).log
          = [Event.setFrequency m.startFrequency m.radioToUse,
             Event.setFrequency m.endFrequency m.radioToUse,
             Event.getRSSI m.radioToUse, Event.isCarrierDetected m.radioToUse]) ∧
    (∀ hops, computeHops m = some hops →
      (hasRSSI E R m s0 = true ∨ hasCD E R m s0 = true) →
      (∀ round hop,
        tuningSucceeds E R m (sweepStateAt E R m s0 hops round hop) = true →
        (sweepStateAt E R m s0 hops round (hop + 1)).log
          = (sweepStateAt E R m s0 hops round hop).log ++
            [Event.setFrequency m.startFrequency m.radioToUse,
             Event.setMode Mode.rfquack_Mode_RX m.radioToUse,
             (if hasRSSI E R m s0 then Event.getRSSI m.radioToUse
              else Event.isCarrierDetected m.radioToUse),
             Event.setMode Mode.rfquack_Mode_IDLE m.radioToUse] ∧
        (hop < hops →
          scoreAt (sweepStateAt E R m s0 hops round (hop + 1)).results hop
            = (if hasRSSI E R m s0 then
                f32 (scoreAt (sweepStateAt E R m s0 hops round hop).results hop
                  + rssiRead R m (sweepStateAt E R m s0 hops round hop))
               else if carrierSeen R m (sweepStateAt E R m s0 hops round hop) then
                scoreAt (sweepStateAt E R m s0 hops round hop).results hop + 1
               else scoreAt (sweepStateAt E R m s0 hops round hop).results hop))) ∧
      rssiReads (start E R m s0).log
        = 1 + (if hasRSSI E R m s0 then successfulHops E R m s0 hops else 0) ∧
      carrierReads (start E R m s0).log
        = 1 + (if hasRSSI E R m s0 then 0 else successfulHops E R m s0 hops) ∧
      (∀ top,
        (bubbleSort (afterSweep E R m s0 hops).results hops).get?
            (toUint8 ((hops : Int) - 1)) = some top →
        top.detections ≠ 0 → 0 < toUint8 ((hops : Int) - 1) →
        (start E R m s0).fault = none →
        ∃ f rest, (start E R m s0).sent
            = { frequency := f, carrier := !hasRSSI E R m s0,
                value := (if hasRSSI E R m s0
                          then f32 (top.detections / (m.rounds : ℚ))
                          else top.detections) } :: rest ∧
          (start E R m s0).reported.head? = some top)) := by
  have hold :
      (hasRSSI E R m s0 = true →
        (∀ w, Event.isCarrierDetected w ∉ (start E R m s0).log.drop 4) ∧
        (∀ r ∈ (start E R m s0).sent, r.carrier = false)) ∧
      (hasRSSI E R m s0 = false → hasCD E R m s0 = true →
        (∀ w, Event.getRSSI w ∉ (start E R m s0).log.drop 4) ∧
        (∀ r ∈ (start E R m s0).sent, r.carrier = true)) ∧
      (hasRSSI E R m s0 = false → hasCD E R m s0 = false →
        (start E R m s0).reply
            = some ⟨msgUnsupported, some E.ERR_COMMAND_NOT_IMPLEMENTED⟩ ∧
        (start E R m s0).sent = [] ∧
        (start E R m s0).log
            = [Event.setFrequency m.startFrequency m.radioToUse,
               Event.setFrequency m.endFrequency m.radioToUse,
               Event.getRSSI m.radioToUse, Event.isCarrierDetected m.radioToUse]) := by
    obtain ⟨h1, h2, h3⟩ := hrange
    have key : ∀ (mode : Bool), (hasCD E R m s0 && !hasRSSI E R m s0) = mode →
        Accepted E R m s0 →
        (∀ e ∈ (start E R m s0).log.drop 4,
          e = Event.setEnabled true ∨ (∃ n, e = Event.allocResults n) ∨
          HopEvent m (hasCD E R m s0) (hasRSSI E R m s0) e ∨
          e = Event.setEnabled false ∨ e = Event.deleteResults ∨
          e = Event.setPromiscuousMode false m.radioToUse) ∧
        (∀ r ∈ (start E R m s0).sent, r.carrier = mode) := by
      intro mode hmode hacc
      cases hh : computeHops m with
      | none =>
        obtain ⟨hlog, hsent, _, _⟩ := start_of_undefined_hops E R m s0 hacc hh
        rw [hlog, hsent]
        simp
      | some hops =>
        obtain ⟨ext, tail, hlog, hext, htail⟩ := start_log_of_accepted E R m s0 hops hacc hh
        constructor
        · rw [hlog]
          intro e he
          simp only [logBeforeSweep, List.cons_append, List.drop_succ_cons, List.drop_zero,
            List.nil_append, List.mem_cons, List.mem_append] at he
          rcases he with rfl | rfl | he | he
          · exact Or.inl rfl
          · exact Or.inr (Or.inl ⟨_, rfl⟩)
          · exact Or.inr (Or.inr (Or.inl (hext e he)))
          · rcases htail with rfl | rfl
            · simp only [List.mem_singleton] at he
              exact Or.inr (Or.inr (Or.inr (Or.inl he)))
            · simp only [List.mem_cons, List.mem_singleton, List.not_mem_nil, or_false] at he
              rcases he with rfl | rfl | rfl
              · exact Or.inr (Or.inr (Or.inr (Or.inl rfl)))
              · exact Or.inr (Or.inr (Or.inr (Or.inr (Or.inl rfl))))
              · exact Or.inr (Or.inr (Or.inr (Or.inr (Or.inr rfl))))
        · rw [start_of_accepted E R m s0 hops hacc hh, ← hmode]
          exact report_sent_carrier R m _ _ hops _
    refine ⟨?_, ?_, ?_⟩
    · intro hr
      obtain ⟨hlog, hsent⟩ := key false (by simp [hr]) ⟨h1, h2, h3, hstep, Or.inr hr⟩
      refine ⟨?_, hsent⟩
      intro w hw
      rcases hlog _ hw with h | ⟨n, h⟩ | h | h | h | h
      · cases h
      · cases h
      · unfold HopEvent at h
        rcases h with h | h | h | ⟨_, h⟩ | ⟨h, _⟩
        · cases h
        · cases h
        · cases h
        · simp [hr] at h
        · cases h
      · cases h
      · cases h
      · cases h
    · intro hr hc
      obtain ⟨hlog, hsent⟩ := key true (by simp [hr, hc]) ⟨h1, h2, h3, hstep, Or.inl hc⟩
      refine ⟨?_, hsent⟩
      intro w hw
      rcases hlog _ hw with h | ⟨n, h⟩ | h | h | h | h
      · cases h
      · cases h
      · unfold HopEvent at h
        rcases h with h | h | h | ⟨h, _⟩ | ⟨_, h⟩
        · cases h
        · cases h
        · cases h
        · cases h
        · simp [hr, hc] at h
      · cases h
      · cases h
      · cases h
    · intro hr hc
      unfold start
      simp only
      rw [if_neg (by simp [h1]), if_neg (by simp [h2, not_le.mpr h3]), if_neg hstep,
        if_pos (by simp [hr, hc])]
      exact ⟨rfl, rfl, rfl⟩
  refine ⟨hold.1, hold.2.1, hold.2.2, ?_⟩
  obtain ⟨h1, h2, h3⟩ := hrange
  intro hops hh hcap
  have hacc : Accepted E R m s0 := ⟨h1, h2, h3, hstep, hcap.symm⟩
  have hmode : (hasCD E R m s0 && !hasRSSI E R m s0) = !hasRSSI E R m s0 := by
    rcases hcap with hc | hc <;> simp [hc]
  refine ⟨?_, ?_, ?_, ?_⟩
  · intro round hop ht
    constructor
    · rw [sweepStateAt_succ_hop, hopBody_log_eq, if_pos ht, hmode]
      cases hasRSSI E R m s0 <;> rfl
    · intro hlt
      rw [sweepStateAt_succ_hop, hopBody_scoreAt _ _ _ _ _ _ _ _
        (by rw [sweepStateAt_length]; exact hlt), if_pos rfl]
      unfold hopUpdate
      rw [if_pos ht, hmode]
      cases hasRSSI E R m s0 <;> simp
  · rw [start_of_accepted E R m s0 hops hacc hh]
    have hreads := (afterSweep_reads E R m s0 hops).1
    rw [hmode] at hreads
    rcases report_log R m (hasCD E R m s0) (hasRSSI E R m s0) hops
      (afterSweep E R m s0 hops) with h | h
    · rw [h, rssiReads_append, hreads]
      cases hasRSSI E R m s0 <;> simp [rssiReads]
    · rw [h, rssiReads_append, hreads]
      cases hasRSSI E R m s0 <;> simp [rssiReads]
  · rw [start_of_accepted E R m s0 hops hacc hh]
    have hreads := (afterSweep_reads E R m s0 hops).2
    rw [hmode] at hreads
    rcases report_log R m (hasCD E R m s0) (hasRSSI E R m s0) hops
      (afterSweep E R m s0 hops) with h | h
    · rw [h, carrierReads_append, hreads]
      cases hasRSSI E R m s0 <;> simp [carrierReads]
    · rw [h, carrierReads_append, hreads]
      cases hasRSSI E R m s0 <;> simp [carrierReads]
  · intro top hget hnz hidx hok
    rw [start_of_accepted E R m s0 hops hacc hh] at hok ⊢
    obtain ⟨f, rest, hsent, hrep⟩ := report_first R m (hasCD E R m s0) (hasRSSI E R m s0)
      hops (afterSweep E R m s0 hops) top hget hnz hidx hok
    refine ⟨f, rest, ?_, hrep⟩
    rw [hsent, hmode]
    unfold reportedValue
    rw [hmode]
    cases hasRSSI E R m s0 <;> simp

/-- C2 at a concrete run: a radio with both RSSI and carrier detection, `start = 2400`,
`end = 2410`, `step = 2`, one round, readings 1 .. 5 at hops 0 .. 4. The sweep reads the
RSSI at each of the five hops and never the carrier, and the four messages are "average
RSSI" messages carrying the scores 5, 4, 3, 2. -/
theorem detection_mode_selection_witness :
    (probeStart (rssiRadio (fun k => k)) (scanConfig 2410 2 1) 0 = exampleCodes.ERR_NONE ∧
      probeEnd (rssiRadio (fun k => k)) (scanConfig 2410 2 1) 0 = exampleCodes.ERR_NONE ∧
      (scanConfig 2410 2 1).startFrequency < (scanConfig 2410 2 1).endFrequency) ∧
    ¬ (scanConfig 2410 2 1).frequencyStep < 0 ∧
    hasRSSI exampleCodes (rssiRadio (fun k => k)) (scanConfig 2410 2 1) 0 = true ∧
    hasCD exampleCodes (rssiRadio (fun k => k)) (scanConfig 2410 2 1) 0 = true ∧
    computeHops (scanConfig 2410 2 1) = some 5 ∧
    successfulHops exampleCodes (rssiRadio (fun k => k)) (scanConfig 2410 2 1) 0 5 = 5 ∧
    (start exampleCodes (rssiRadio (fun k => k)) (scanConfig 2410 2 1) 0).sent
      = [⟨2408000, false, 5⟩, ⟨2406000, false, 4⟩, ⟨2404000, false, 3⟩,
         ⟨2402000, false, 2⟩] ∧
    (start exampleCodes (rssiRadio (fun k => k)) (scanConfig 2410 2 1) 0).log.drop 6
      = [Event.setFrequency 2400 0, Event.setMode Mode.rfquack_Mode_RX 0, Event.getRSSI 0,
         Event.setMode Mode.rfquack_Mode_IDLE 0,
         Event.setFrequency 2400 0, Event.setMode Mode.rfquack_Mode_RX 0, Event.getRSSI 0,
         Event.setMode Mode.rfquack_Mode_IDLE 0,
         Event.setFrequency 2400 0, Event.setMode Mode.rfquack_Mode_RX 0, Event.getRSSI 0,
         Event.setMode Mode.rfquack_Mode_IDLE 0,
         Event.setFrequency 2400 0, Event.setMode Mode.rfquack_Mode_RX 0, Event.getRSSI 0,
         Event.setMode Mode.rfquack_Mode_IDLE 0,
         Event.setFrequency 2400 0, Event.setMode Mode.rfquack_Mode_RX 0, Event.getRSSI 0,
         Event.setMode Mode.rfquack_Mode_IDLE 0,
         Event.setEnabled false, Event.deleteResults,
         Event.setPromiscuousMode false 0] ∧
    rssiReads (start exampleCodes (rssiRadio (fun k => k)) (scanConfig 2410 2 1) 0).log
      = 1 + (if hasRSSI exampleCodes (rssiRadio (fun k => k)) (scanConfig 2410 2 1) 0
             then successfulHops exampleCodes (rssiRadio (fun k => k)) (scanConfig 2410 2 1) 0 5
             else 0) ∧
    carrierReads (start exampleCodes (rssiRadio (fun k => k)) (scanConfig 2410 2 1) 0).log
      = 1 + (if hasRSSI exampleCodes (rssiRadio (fun k => k)) (scanConfig 2410 2 1) 0
             then 0
             else successfulHops exampleCodes (rssiRadio (fun k => k))
               (scanConfig 2410 2 1) 0 5) :=
  ⟨by decide!, by decide!, by decide!, by decide!, by decide!, by decide!, by decide!,
    by decide!,
    ((detection_mode_selection exampleCodes (rssiRadio (fun k => k)) (scanConfig 2410 2 1) 0
      (by decide!) (by decide!)).2.2.2 5 (by decide!) (Or.inl (by decide!))).2.1,
    ((detection_mode_selection exampleCodes (rssiRadio (fun k => k)) (scanConfig 2410 2 1) 0
      (by decide!) (by decide!)).2.2.2 5 (by decide!) (Or.inl (by decide!))).2.2.1⟩

end RFQuack
